import Mathlib

/-!
Verification of the playoff-picture core of the light-score repository.

The definitions below are a shallow embedding of the two core components of
`src/backend/src/main.py`:

* the Regular-Season Seeding Engine (`_compute_playoff_picture_from_standings`,
  in particular its inner functions `sort_key`, `get_division_leaders` and
  `assign_playoff_status`), and
* the Postseason Bracket Tracker (`_compute_playoff_picture_from_bracket`).

Python `int` fields that are always non-negative in the program (wins, losses,
ties, counts) are modelled as `Nat`; the games-back arithmetic, which Python
performs on signed ints, is modelled on `Int`.  Python's
`max(0, TOTAL_GAMES - games_played)` coincides with truncated `Nat`
subtraction.  The `abbreviation` lookup table and the constant per-conference
tag, which the seeding logic never reads, are omitted from the regular-season
team state.
-/

namespace LightScore

/-- A standings row as consumed by the seeding engine: the fields of one
`standings` entry read by `_compute_playoff_picture_from_standings`. -/
structure TeamRecord where
  team : String
  division : String
  wins : Nat
  losses : Nat
  ties : Nat
deriving DecidableEq, Repr

/-- The mutable per-team dict built at the top of
`_compute_playoff_picture_from_standings` (fields the seeding logic reads or
writes). -/
structure TeamStatus where
  team : String
  division : String
  wins : Nat
  losses : Nat
  ties : Nat
  games_remaining : Nat
  max_possible_wins : Nat
  seed : Option Nat
  status : String
  status_detail : String
  eliminated_round : Option String
  playoff_wins : Nat
  playoff_losses : Nat
deriving DecidableEq, Repr, Inhabited

/-- Build the initial team-status dict for one standings row.
`TOTAL_GAMES = 17`; `games_remaining = max(0, 17 - games_played)` is truncated
subtraction on `Nat`. -/
def mk_team_status (r : TeamRecord) : TeamStatus :=
  let games_played := r.wins + r.losses + r.ties
  let games_remaining := 17 - games_played
  { team := r.team
    division := r.division
    wins := r.wins
    losses := r.losses
    ties := r.ties
    games_remaining := games_remaining
    max_possible_wins := r.wins + games_remaining
    seed := none
    status := "in_hunt"
    status_detail := "In the hunt"
    eliminated_round := none
    playoff_wins := 0
    playoff_losses := 0 }

/-- The initial team-status list for a conference's standings rows. -/
def team_statuses (recs : List TeamRecord) : List TeamStatus :=
  recs.map mk_team_status

/-- Lexicographic comparison of character lists by code point: the order
Python uses on `str`. -/
def chars_le : List Char → List Char → Bool
  | [], _ => true
  | _ :: _, [] => false
  | c :: cs, d :: ds => if c < d then true else if d < c then false else chars_le cs ds

/-- Lexicographic string comparison (Python `str` comparison). -/
def str_le (a b : String) : Bool := chars_le a.data b.data

/-- `sort_key(t) = (-wins, losses, team)` compared lexicographically; this is
the boolean "key of `a` ≤ key of `b`" relation used for every sort below. -/
def sort_key_le (a b : TeamStatus) : Bool :=
  if a.wins ≠ b.wins then decide (b.wins < a.wins)
  else if a.losses ≠ b.losses then decide (a.losses < b.losses)
  else str_le a.team b.team

/-- `sort_key_le` as a decidable relation; Python `list.sort` is a stable sort
by this total preorder, modelled below by the (equally stable) insertion
sort. -/
def sort_key_r (a b : TeamStatus) : Prop := sort_key_le a b = true

instance : DecidableRel sort_key_r := fun a b => instDecidableEqBool (sort_key_le a b) true

/-- `get_division_leaders`, one division at a time: the best team (by
`sort_key`) among the teams of division `d`, or `none` if the division is
empty. -/
def division_leader (teams : List TeamStatus) (d : String) : Option TeamStatus :=
  (List.insertionSort sort_key_r (teams.filter (fun t => t.division == d))).head?

/-- `leader_names = {t["team"] for t in division_leaders.values()}`: the names
of the per-division leaders (used only through membership). -/
def leader_names (teams : List TeamStatus) : List String :=
  ((teams.map (fun t => t.division)).dedup).filterMap
    (fun d => (division_leader teams d).map (fun t => t.team))

/-- `div_winners`: teams whose name is a division leader's name. -/
def div_winners (teams : List TeamStatus) : List TeamStatus :=
  teams.filter (fun t => (leader_names teams).contains t.team)

/-- `non_winners`: the wild-card contender pool. -/
def non_winners (teams : List TeamStatus) : List TeamStatus :=
  teams.filter (fun t => !((leader_names teams).contains t.team))

/-- `div_winners.sort(key=sort_key)` (a stable sort). -/
def sorted_winners (teams : List TeamStatus) : List TeamStatus :=
  List.insertionSort sort_key_r (div_winners teams)

/-- `non_winners.sort(key=sort_key)` (a stable sort). -/
def sorted_non_winners (teams : List TeamStatus) : List TeamStatus :=
  List.insertionSort sort_key_r (non_winners teams)

/-- `seventh_place_wins`: wins of the 3rd wild card (`non_winners[2]`), or 0
when fewer than 3 non-winners exist. -/
def seventh_place_wins (teams : List TeamStatus) : Nat :=
  if 3 ≤ (sorted_non_winners teams).length then
    ((sorted_non_winners teams).getD 2 default).wins
  else 0

/-- `eighth_place_max`: `max_possible_wins` of the first team out
(`non_winners[3]`), or 0 when fewer than 4 non-winners exist. -/
def eighth_place_max (teams : List TeamStatus) : Nat :=
  if 3 < (sorted_non_winners teams).length then
    ((sorted_non_winners teams).getD 3 default).max_possible_wins
  else 0

/-- `div_second_max`: the maximum `max_possible_wins` over the teams of `t`'s
division other than `t` itself (teams are identified by name), default 0.
`max(gen, default=0)` over `Nat` values is a fold of `max` over 0. -/
def div_second_max (teams : List TeamStatus) (t : TeamStatus) : Nat :=
  ((teams.filter (fun u => u.division == t.division && u.team != t.team)).map
    (fun u => u.max_possible_wins)).foldr max 0

/-- Seeding of the division winner at rank `i` (seed `i + 1`), including its
clinch test against `div_second_max`. -/
def seed_winner_one (teams : List TeamStatus) (i : Nat) (t : TeamStatus) : TeamStatus :=
  if div_second_max teams t < t.wins then
    if i = 0 then
      { t with seed := some (i + 1), status := "clinched_bye",
               status_detail := "Clinched #1 seed" }
    else
      { t with seed := some (i + 1), status := "clinched_division",
               status_detail := "Clinched division (#" ++ toString (i + 1) ++ " seed)" }
  else
    { t with seed := some (i + 1), status := "in_position",
             status_detail := "Division leader (#" ++ toString (i + 1) ++ " seed)" }

/-- The `for i, team in enumerate(div_winners[:4])` seeding loop, starting at
rank `i`. -/
def seed_winners (teams : List TeamStatus) (i : Nat) : List TeamStatus → List TeamStatus
  | [] => []
  | t :: rest => seed_winner_one teams i t :: seed_winners teams (i + 1) rest

/-- Seeding of the wild card at rank `i` (seed `4 + i + 1`), including its
clinch test against `eighth_place_max`. -/
def seed_wild_one (eighthMax : Nat) (i : Nat) (t : TeamStatus) : TeamStatus :=
  if eighthMax < t.wins then
    { t with seed := some (4 + i + 1), status := "clinched_wildcard",
             status_detail := "Clinched wild card (#" ++ toString (4 + i + 1) ++ " seed)" }
  else
    { t with seed := some (4 + i + 1), status := "in_position",
             status_detail := "Wild card (#" ++ toString (4 + i + 1) ++ " seed)" }

/-- The `for i, team in enumerate(non_winners[:3])` seeding loop. -/
def seed_wilds (eighthMax : Nat) (i : Nat) : List TeamStatus → List TeamStatus
  | [] => []
  | t :: rest => seed_wild_one eighthMax i t :: seed_wilds eighthMax (i + 1) rest

/-- `strictly_ahead`: teams of the pool, other than `t` (by name), whose wins
exceed `t`'s `max_possible_wins`. -/
def strictly_ahead (pool : List TeamStatus) (t : TeamStatus) : Nat :=
  (pool.filter (fun o => o.team != t.team && t.max_possible_wins < o.wins)).length

/-- `at_same_level`: teams of the pool, other than `t` (by name), whose wins
equal `t`'s `max_possible_wins`. -/
def at_same_level (pool : List TeamStatus) (t : TeamStatus) : Nat :=
  (pool.filter (fun o => o.team != t.team && o.wins == t.max_possible_wins)).length

/-- The wild-card elimination math for a team that cannot win its division.
The pool passed by the engine is the non-winner list; only the `team`, `wins`
and `max_possible_wins` fields of pool members are read, so the in-place
seed/status mutation of the top three wild cards in the Python loop is
irrelevant here. -/
def classify_wild_card (pool : List TeamStatus) (seventhWins : Nat) (t : TeamStatus) : TeamStatus :=
  if 3 ≤ strictly_ahead pool t then
    { t with status := "eliminated", status_detail := "Eliminated from playoffs" }
  else if 3 ≤ strictly_ahead pool t + at_same_level pool t then
    { t with status := "in_hunt", status_detail := "Long shot (needs help + tiebreakers)" }
  else if t.max_possible_wins < seventhWins then
    { t with status := "eliminated", status_detail := "Eliminated from playoffs" }
  else
    if 0 < (seventhWins : Int) - (t.wins : Int) then
      { t with status := "in_hunt",
               status_detail := toString ((seventhWins : Int) - (t.wins : Int)) ++ " game"
                 ++ (if 1 < (seventhWins : Int) - (t.wins : Int) then "s" else "") ++ " back" }
    else
      { t with status := "in_hunt", status_detail := "In wild card hunt" }

/-- Classification of one team outside the top 7: the division-race check
first, then the wild-card math. -/
def classify_unseeded (teams pool : List TeamStatus) (seventhWins : Nat)
    (t : TeamStatus) : TeamStatus :=
  match division_leader teams t.division with
  | some ld =>
    if ld.wins ≤ t.max_possible_wins then
      if 0 < (ld.wins : Int) - (t.wins : Int) then
        { t with status := "in_hunt",
                 status_detail := toString ((ld.wins : Int) - (t.wins : Int)) ++ " game"
                   ++ (if 1 < (ld.wins : Int) - (t.wins : Int) then "s" else "")
                   ++ " back in division" }
      else
        { t with status := "in_hunt", status_detail := "In division race" }
    else classify_wild_card pool seventhWins t
  | none => classify_wild_card pool seventhWins t

/-- `assign_playoff_status` for one conference.

The Python function mutates the team dicts in place and finally returns the
seeded teams sorted by seed followed by the unseeded teams sorted by
`sort_key`.  The seeds handed out are pairwise distinct and already produced
in ascending order (1..k then 5..7), so the "sort seeded by seed" step yields
exactly the two seeding loops' outputs in order.  Teams with equal sort keys
have equal names, hence are either both division winners or both not, and the
stable sorts keep any equal-key group in input order in both lists being
concatenated; therefore stably sorting the concatenation below produces the
same list as Python's stable sort of the input-order unseeded teams. -/
def assign_playoff_status (teams : List TeamStatus) : List TeamStatus :=
  if teams.length < 7 then teams
  else
    seed_winners teams 0 ((sorted_winners teams).take 4) ++
    seed_wilds (eighth_place_max teams) 0 ((sorted_non_winners teams).take 3) ++
    List.insertionSort sort_key_r
      ((sorted_winners teams).drop 4 ++
        ((sorted_non_winners teams).drop 3).map
          (classify_unseeded teams (sorted_non_winners teams) (seventh_place_wins teams)))

/-- The Regular-Season Seeding Engine applied to one conference's standings
rows (the per-conference body of `_compute_playoff_picture_from_standings`). -/
def seeding_engine (recs : List TeamRecord) : List TeamStatus :=
  assign_playoff_status (team_statuses recs)


/-- Can `t` still not catch its division leader?  True when the leader of
`t`'s division exists and its wins strictly exceed `t`'s
`max_possible_wins` (the negation of the engine's `can_win_division`). -/
def below_division_leader (teams : List TeamStatus) (t : TeamStatus) : Bool :=
  match division_leader teams t.division with
  | some ld => t.max_possible_wins < ld.wins
  | none => false

/-- The classification policy for teams outside the top 7, written from the
specification: division-race check first, then the wild-card policy
`strictlyAhead ≥ 3 ⇒ eliminated`, else `strictlyAhead + atSameLevel ≥ 3 ⇒
in_hunt` (long shot), else `maxPossibleWins < seventhPlaceWins ⇒ eliminated`,
else `in_hunt`.  The counts run over the non-winner pool excluding the team
itself; teams are identified by name throughout. -/
def spec_unseeded_status (teams : List TeamStatus) (t : TeamStatus) : String :=
  match division_leader teams t.division with
  | some ld =>
    if ld.wins ≤ t.max_possible_wins then "in_hunt"
    else
      if 3 ≤ strictly_ahead (non_winners teams) t then "eliminated"
      else if 3 ≤ strictly_ahead (non_winners teams) t + at_same_level (non_winners teams) t then
        "in_hunt"
      else if t.max_possible_wins < seventh_place_wins teams then "eliminated"
      else "in_hunt"
  | none =>
    if 3 ≤ strictly_ahead (non_winners teams) t then "eliminated"
    else if 3 ≤ strictly_ahead (non_winners teams) t + at_same_level (non_winners teams) t then
      "in_hunt"
    else if t.max_possible_wins < seventh_place_wins teams then "eliminated"
    else "in_hunt"

/-! ### The Postseason Bracket Tracker -/

/-- One bracket game as read by `_compute_playoff_picture_from_bracket`.
Missing string fields are modelled as `""` (matching the `.get(..., "")`
defaults and Python truthiness on strings); the round name may be absent. -/
structure BracketGame where
  conference : String
  round : Option String
  status : String
  home_team : String
  away_team : String
  winner : String
deriving DecidableEq, Repr

/-- One pre-seeded bracket entry. -/
structure SeedEntry where
  seed : Option Nat
  team : String
  abbreviation : String
  eliminated : Bool
deriving DecidableEq, Repr

/-- Output row of the Bracket Tracker (regular-season record fields, which it
leaves at zero, and the empty division string are omitted). -/
structure BracketTeamStatus where
  team : String
  abbreviation : String
  conference : String
  seed : Option Nat
  status : String
  status_detail : String
  eliminated_round : Option String
  playoff_wins : Nat
  playoff_losses : Nat
deriving DecidableEq, Repr

/-- The Super Bowl participant pool: home and away names (when non-empty) of
every game tagged "Super Bowl". -/
def super_bowl_teams (games : List BracketGame) : List String :=
  (games.filter (fun g => g.conference == "Super Bowl")).foldr
    (fun g acc =>
      (if g.home_team != "" then [g.home_team] else []) ++
      (if g.away_team != "" then [g.away_team] else []) ++ acc) []

/-- The games replayed for a team: conference matches the team's conference or
"Super Bowl", status is "final", and the team is home or away. -/
def relevant_games (conf name : String) (games : List BracketGame) : List BracketGame :=
  games.filter (fun g =>
    (g.conference == conf || g.conference == "Super Bowl") &&
    g.status == "final" && (g.home_team == name || g.away_team == name))

/-- Playoff wins counted during the replay. -/
def playoff_wins_of (conf name : String) (games : List BracketGame) : Nat :=
  ((relevant_games conf name games).filter (fun g => g.winner == name)).length

/-- Playoff losses counted during the replay. -/
def playoff_losses_of (conf name : String) (games : List BracketGame) : Nat :=
  ((relevant_games conf name games).filter (fun g => g.winner != name)).length

/-- The elimination round: the round name of the last replayed loss, in
iteration order (the games list is not sorted by round). -/
def elim_round_of (conf name : String) (games : List BracketGame) : Option String :=
  (((relevant_games conf name games).filter (fun g => g.winner != name)).getLast?).bind
    (fun g => g.round)

/-- Processing of one SeedEntry by the Bracket Tracker. -/
def process_seed (games : List BracketGame) (conf : String) (s : SeedEntry) :
    BracketTeamStatus :=
  let elim_round := elim_round_of conf s.team games
  let st : String × String :=
    if (super_bowl_teams games).contains s.team then ("super_bowl", "Super Bowl")
    else if s.eliminated then
      ("eliminated",
        match elim_round with
        | some r => "Eliminated in " ++ r
        | none => "Eliminated")
    else ("alive", "Still alive")
  { team := s.team
    abbreviation := s.abbreviation
    conference := conf
    seed := s.seed
    status := st.1
    status_detail := st.2
    eliminated_round := elim_round
    playoff_wins := playoff_wins_of conf s.team games
    playoff_losses := playoff_losses_of conf s.team games }

/-- `_compute_playoff_picture_from_bracket`: both conferences processed
against the same game list. -/
def compute_playoff_picture_from_bracket (afc_seeds nfc_seeds : List SeedEntry)
    (games : List BracketGame) : List BracketTeamStatus × List BracketTeamStatus :=
  (afc_seeds.map (process_seed games "AFC"), nfc_seeds.map (process_seed games "NFC"))

/-! ### Concrete inputs used for counterexamples and witnesses -/

/-- A 7-team conference with only two divisions. -/
def ex_two_divisions : List TeamRecord :=
  [⟨"A", "E", 10, 7, 0⟩, ⟨"B", "E", 9, 8, 0⟩, ⟨"C", "E", 8, 9, 0⟩, ⟨"D", "E", 7, 10, 0⟩,
   ⟨"F", "W", 6, 11, 0⟩, ⟨"G", "W", 5, 12, 0⟩, ⟨"H", "W", 4, 13, 0⟩]

/-- An 8-team conference in which team "Xte" has finished its season tied
with its division leader but below the wild-card cutoff. -/
def ex_division_race : List TeamRecord :=
  [⟨"Aard", "A", 5, 12, 0⟩, ⟨"Xte", "A", 5, 12, 0⟩,
   ⟨"B1", "B", 10, 7, 0⟩, ⟨"B2", "B", 8, 9, 0⟩,
   ⟨"C1", "C", 10, 7, 0⟩, ⟨"C2", "C", 8, 9, 0⟩,
   ⟨"D1", "D", 10, 7, 0⟩, ⟨"D2", "D", 8, 9, 0⟩]

/-- A 7-team conference spread over five divisions: five leaders, only two
wild-card contenders. -/
def ex_five_divisions : List TeamRecord :=
  [⟨"A", "V", 10, 7, 0⟩, ⟨"B", "W", 9, 8, 0⟩, ⟨"C", "X", 8, 9, 0⟩, ⟨"D", "Y", 7, 10, 0⟩,
   ⟨"E", "Z", 6, 11, 0⟩, ⟨"F", "V", 5, 12, 0⟩, ⟨"G", "W", 4, 13, 0⟩]

/-- A full 16-team conference: four divisions of four, all games played. -/
def ex_conference : List TeamRecord :=
  [⟨"A", "E", 12, 5, 0⟩, ⟨"B", "E", 10, 7, 0⟩, ⟨"C", "E", 8, 9, 0⟩, ⟨"D", "E", 4, 13, 0⟩,
   ⟨"E", "N", 11, 6, 0⟩, ⟨"F", "N", 9, 8, 0⟩, ⟨"G", "N", 7, 10, 0⟩, ⟨"H", "N", 5, 12, 0⟩,
   ⟨"I", "S", 13, 4, 0⟩, ⟨"J", "S", 9, 8, 0⟩, ⟨"K", "S", 6, 11, 0⟩, ⟨"L", "S", 3, 14, 0⟩,
   ⟨"M", "W", 10, 7, 0⟩, ⟨"N", "W", 8, 9, 0⟩, ⟨"O", "W", 7, 10, 0⟩, ⟨"P", "W", 2, 15, 0⟩]

/-- The same 16-team conference listed in a different order. -/
def ex_conference_shuffled : List TeamRecord :=
  [⟨"P", "W", 2, 15, 0⟩, ⟨"I", "S", 13, 4, 0⟩, ⟨"B", "E", 10, 7, 0⟩, ⟨"C", "E", 8, 9, 0⟩,
   ⟨"E", "N", 11, 6, 0⟩, ⟨"A", "E", 12, 5, 0⟩, ⟨"G", "N", 7, 10, 0⟩, ⟨"H", "N", 5, 12, 0⟩,
   ⟨"J", "S", 9, 8, 0⟩, ⟨"K", "S", 6, 11, 0⟩, ⟨"L", "S", 3, 14, 0⟩, ⟨"F", "N", 9, 8, 0⟩,
   ⟨"M", "W", 10, 7, 0⟩, ⟨"N", "W", 8, 9, 0⟩, ⟨"O", "W", 7, 10, 0⟩, ⟨"D", "E", 4, 13, 0⟩]

/-- A two-team "conference" and a reordering of it. -/
def ex_pair : List TeamRecord := [⟨"A", "E", 3, 2, 0⟩, ⟨"B", "W", 1, 4, 0⟩]

/-- `ex_pair` reversed. -/
def ex_pair_rev : List TeamRecord := [⟨"B", "W", 1, 4, 0⟩, ⟨"A", "E", 3, 2, 0⟩]

/-- A three-team conference (early-exit path). -/
def ex_small : List TeamRecord :=
  [⟨"A", "E", 3, 2, 0⟩, ⟨"B", "E", 1, 4, 0⟩, ⟨"C", "W", 2, 3, 0⟩]

/-- A small postseason bracket: three final games and one Super Bowl game. -/
def ex_games : List BracketGame :=
  [⟨"AFC", some "Wild Card", "final", "A", "B", "A"⟩,
   ⟨"AFC", some "Conference", "final", "A", "C", "C"⟩,
   ⟨"NFC", some "Conference", "final", "X", "Y", "X"⟩,
   ⟨"Super Bowl", some "Super Bowl", "upcoming", "C", "X", ""⟩]

/-- The same bracket without the Super Bowl game. -/
def ex_games_no_sb : List BracketGame :=
  [⟨"AFC", some "Wild Card", "final", "A", "B", "A"⟩,
   ⟨"AFC", some "Conference", "final", "A", "C", "C"⟩,
   ⟨"NFC", some "Conference", "final", "X", "Y", "X"⟩]

/-- A seed entry for team "A", eliminated by its conference-final loss. -/
def ex_seed_a : SeedEntry := ⟨some 1, "A", "A", true⟩

/-- A seed entry for team "C". -/
def ex_seed_c : SeedEntry := ⟨some 3, "C", "C", false⟩

/-- Does `t` hold a seed in the interval `[lo, hi]`? -/
def seed_in (lo hi : Nat) (t : TeamStatus) : Bool :=
  match t.seed with
  | some s => lo ≤ s && s ≤ hi
  | none => false

end LightScore

namespace LightScore

/-! ### Properties of the sort-key comparison -/

/-- `chars_le` is total. -/
theorem chars_le_total (a b : List Char) : chars_le a b = true ∨ chars_le b a = true := by
  induction a generalizing b with
  | nil => left; rfl
  | cons c cs ih =>
    cases b with
    | nil => right; rfl
    | cons d ds =>
      rcases lt_trichotomy c d with h | h | h
      · left; simp [chars_le, h]
      · subst h
        rcases ih ds with h | h <;> [left; right] <;> simp [chars_le, h, lt_irrefl]
      · right; simp [chars_le, h]

/-- `chars_le` is transitive. -/
theorem chars_le_trans {a b c : List Char} (h₁ : chars_le a b = true)
    (h₂ : chars_le b c = true) : chars_le a c = true := by
  induction a generalizing b c with
  | nil => rfl
  | cons x xs ih =>
    cases b with
    | nil => simp [chars_le] at h₁
    | cons y ys =>
      cases c with
      | nil => simp [chars_le] at h₂
      | cons z zs =>
        by_cases h1 : x < y
        · by_cases h2 : y < z
          · simp [chars_le, lt_trans h1 h2]
          · by_cases h3 : z < y
            · simp [chars_le, h2, h3] at h₂
            · have hyz : y = z := le_antisymm (not_lt.mp h3) (not_lt.mp h2)
              subst hyz
              simp [chars_le, h1]
        · by_cases h1' : y < x
          · simp [chars_le, h1, h1'] at h₁
          · have hxy : x = y := le_antisymm (not_lt.mp h1') (not_lt.mp h1)
            subst hxy
            simp only [chars_le, lt_irrefl, if_false] at h₁
            by_cases h2 : x < z
            · simp [chars_le, h2]
            · by_cases h3 : z < x
              · simp [chars_le, h2, h3] at h₂
              · have hxz : x = z := le_antisymm (not_lt.mp h3) (not_lt.mp h2)
                subst hxz
                simp only [chars_le, lt_irrefl, if_false] at h₂ ⊢
                exact ih h₁ h₂

/-- `chars_le` is antisymmetric. -/
theorem chars_le_antisymm {a b : List Char} (h₁ : chars_le a b = true)
    (h₂ : chars_le b a = true) : a = b := by
  induction a generalizing b with
  | nil =>
    cases b with
    | nil => rfl
    | cons d ds => simp [chars_le] at h₂
  | cons c cs ih =>
    cases b with
    | nil => simp [chars_le] at h₁
    | cons d ds =>
      simp only [chars_le] at h₁ h₂
      rcases lt_trichotomy c d with h | h | h
      · simp [h, asymm h] at h₂
      · subst h
        simp [lt_irrefl] at h₁ h₂
        rw [ih h₁ h₂]
      · simp [h, asymm h] at h₁

/-- `str_le` is total. -/
theorem str_le_total (a b : String) : str_le a b = true ∨ str_le b a = true :=
  chars_le_total a.data b.data

/-- `str_le` is transitive. -/
theorem str_le_trans {a b c : String} (h₁ : str_le a b = true) (h₂ : str_le b c = true) :
    str_le a c = true :=
  chars_le_trans h₁ h₂

/-- `str_le` is antisymmetric. -/
theorem str_le_antisymm {a b : String} (h₁ : str_le a b = true) (h₂ : str_le b a = true) :
    a = b :=
  String.ext (chars_le_antisymm h₁ h₂)

/-- Characterisation of `sort_key_le` as the lexicographic order on
`(-wins, losses, team)`. -/
theorem sort_key_le_iff (a b : TeamStatus) :
    sort_key_le a b = true ↔
      b.wins < a.wins ∨ (a.wins = b.wins ∧ (a.losses < b.losses ∨
        (a.losses = b.losses ∧ str_le a.team b.team = true))) := by
  unfold sort_key_le
  by_cases hw : a.wins = b.wins
  · by_cases hl : a.losses = b.losses
    · simp [hw, hl]
    · simp [hw, hl]
  · simp only [ne_eq, hw, not_false_iff, if_pos, decide_eq_true_eq]
    constructor
    · intro h; exact Or.inl h
    · rintro (h | ⟨h, _⟩)
      · exact h
      · exact h.elim

/-- `sort_key_le` is total. -/
theorem sort_key_le_total (a b : TeamStatus) :
    (sort_key_le a b || sort_key_le b a) = true := by
  rcases str_le_total a.team b.team with h | h <;>
    simp [sort_key_le_iff, h] <;> omega

/-- `sort_key_le` is transitive. -/
theorem sort_key_le_trans (a b c : TeamStatus) :
    sort_key_le a b = true → sort_key_le b c = true → sort_key_le a c = true := by
  simp only [sort_key_le_iff]
  rintro (h₁ | ⟨e₁, h₁ | ⟨f₁, g₁⟩⟩) (h₂ | ⟨e₂, h₂ | ⟨f₂, g₂⟩⟩) <;>
    first
      | (left; omega)
      | (right; constructor; omega; left; omega)
      | (right; exact ⟨by omega, Or.inr ⟨by omega, str_le_trans g₁ g₂⟩⟩)

/-- Earlier teams in a `sort_key_le`-sorted list have at least as many wins. -/
theorem wins_le_of_sort_key_le {a b : TeamStatus} (h : sort_key_le a b = true) :
    b.wins ≤ a.wins := by
  rw [sort_key_le_iff] at h
  rcases h with h | ⟨e, _⟩ <;> omega

/-- Two teams each `sort_key_le` the other have equal keys. -/
theorem sort_key_le_antisymm {a b : TeamStatus}
    (h₁ : sort_key_le a b = true) (h₂ : sort_key_le b a = true) :
    a.wins = b.wins ∧ a.losses = b.losses ∧ a.team = b.team := by
  rw [sort_key_le_iff] at h₁ h₂
  rcases h₁ with h₁ | ⟨e₁, h₁ | ⟨f₁, g₁⟩⟩ <;> rcases h₂ with h₂ | ⟨e₂, h₂ | ⟨f₂, g₂⟩⟩ <;>
    first
      | omega
      | exact ⟨by omega, by omega, str_le_antisymm g₁ g₂⟩

/-! ### Generic list facts -/

/-- Splitting a list's length by a boolean predicate. -/
theorem length_filter_add_length_filter_not {α : Type} (l : List α) (p : α → Bool) :
    (l.filter p).length + (l.filter (fun a => !p a)).length = l.length := by
  induction l with
  | nil => rfl
  | cons a l ih => by_cases h : p a <;> simp [List.filter_cons, h] <;> omega

/-- A sorted list is determined by its multiset of elements, provided the
ordering is antisymmetric on those elements. -/
theorem eq_of_perm_of_pairwise {α : Type} (le : α → α → Bool) :
    ∀ {l₁ l₂ : List α}, l₁.Perm l₂ →
      l₁.Pairwise (fun a b => le a b = true) →
      l₂.Pairwise (fun a b => le a b = true) →
      (∀ a ∈ l₁, ∀ b ∈ l₁, le a b = true → le b a = true → a = b) →
      l₁ = l₂
  | [], l₂, h, _, _, _ => (h.symm.eq_nil).symm
  | a :: t₁, [], h, _, _, _ => absurd h.eq_nil (by simp)
  | a :: t₁, b :: t₂, h, s₁, s₂, anti => by
    have hab : a = b := by
      by_contra hne
      have ha2 : a ∈ b :: t₂ := h.mem_iff.mp (List.mem_cons_self a t₁)
      have hb1 : b ∈ a :: t₁ := h.symm.mem_iff.mp (List.mem_cons_self b t₂)
      have hat : a ∈ t₂ := by cases ha2 with
        | head => exact absurd rfl hne
        | tail _ hmem => exact hmem
      have hbt : b ∈ t₁ := by cases hb1 with
        | head => exact absurd rfl (fun e => hne e.symm)
        | tail _ hmem => exact hmem
      have hba : le b a = true := (List.pairwise_cons.mp s₂).1 a hat
      have hab' : le a b = true := (List.pairwise_cons.mp s₁).1 b hbt
      exact hne (anti a (List.mem_cons_self a t₁) b hb1 hab' hba)
    subst hab
    have htail : t₁.Perm t₂ := h.cons_inv
    have : t₁ = t₂ :=
      eq_of_perm_of_pairwise le htail (List.pairwise_cons.mp s₁).2
        (List.pairwise_cons.mp s₂).2
        (fun x hx y hy => anti x (List.mem_cons_of_mem a hx) y (List.mem_cons_of_mem a hy))
    rw [this]

instance : IsTotal TeamStatus sort_key_r :=
  ⟨fun a b => by
    have h := sort_key_le_total a b
    rw [Bool.or_eq_true] at h
    exact h⟩

instance : IsTrans TeamStatus sort_key_r :=
  ⟨fun a b c => sort_key_le_trans a b c⟩

/-- The insertion sort by `sort_key_r` is pairwise ordered. -/
theorem pairwise_insertionSort_sort_key (l : List TeamStatus) :
    (List.insertionSort sort_key_r l).Pairwise (fun a b => sort_key_le a b = true) :=
  List.sorted_insertionSort sort_key_r l

/-- Sorting by `sort_key_r` depends only on the multiset of elements, as
long as their keys are pairwise distinguishable (antisymmetry on members). -/
theorem insertionSort_sort_key_eq_of_perm {l₁ l₂ : List TeamStatus} (h : l₁.Perm l₂)
    (anti : ∀ a ∈ l₁, ∀ b ∈ l₁, sort_key_le a b = true → sort_key_le b a = true → a = b) :
    List.insertionSort sort_key_r l₁ = List.insertionSort sort_key_r l₂ := by
  apply eq_of_perm_of_pairwise sort_key_le
  · exact (List.perm_insertionSort sort_key_r l₁).trans
      (h.trans (List.perm_insertionSort sort_key_r l₂).symm)
  · exact pairwise_insertionSort_sort_key l₁
  · exact pairwise_insertionSort_sort_key l₂
  · intro a ha b hb
    have ha' : a ∈ l₁ := (List.perm_insertionSort sort_key_r l₁).mem_iff.mp ha
    have hb' : b ∈ l₁ := (List.perm_insertionSort sort_key_r l₁).mem_iff.mp hb
    exact anti a ha' b hb' 

end LightScore

namespace LightScore

/-! ### Field bookkeeping for the update functions -/

@[simp] theorem seed_winner_one_seed (teams : List TeamStatus) (i : Nat) (t : TeamStatus) :
    (seed_winner_one teams i t).seed = some (i + 1) := by
  unfold seed_winner_one; split_ifs <;> rfl

@[simp] theorem seed_winner_one_team (teams : List TeamStatus) (i : Nat) (t : TeamStatus) :
    (seed_winner_one teams i t).team = t.team := by
  unfold seed_winner_one; split_ifs <;> rfl

@[simp] theorem seed_winner_one_division (teams : List TeamStatus) (i : Nat) (t : TeamStatus) :
    (seed_winner_one teams i t).division = t.division := by
  unfold seed_winner_one; split_ifs <;> rfl

@[simp] theorem seed_winner_one_wins (teams : List TeamStatus) (i : Nat) (t : TeamStatus) :
    (seed_winner_one teams i t).wins = t.wins := by
  unfold seed_winner_one; split_ifs <;> rfl

@[simp] theorem seed_winner_one_mpw (teams : List TeamStatus) (i : Nat) (t : TeamStatus) :
    (seed_winner_one teams i t).max_possible_wins = t.max_possible_wins := by
  unfold seed_winner_one; split_ifs <;> rfl

/-- The status written by the division-winner seeding step. -/
theorem seed_winner_one_status (teams : List TeamStatus) (i : Nat) (t : TeamStatus) :
    (seed_winner_one teams i t).status =
      if div_second_max teams t < t.wins then
        (if i = 0 then "clinched_bye" else "clinched_division")
      else "in_position" := by
  unfold seed_winner_one; split_ifs <;> rfl

@[simp] theorem seed_wild_one_seed (e i : Nat) (t : TeamStatus) :
    (seed_wild_one e i t).seed = some (4 + i + 1) := by
  unfold seed_wild_one; split_ifs <;> rfl

@[simp] theorem seed_wild_one_team (e i : Nat) (t : TeamStatus) :
    (seed_wild_one e i t).team = t.team := by
  unfold seed_wild_one; split_ifs <;> rfl

@[simp] theorem seed_wild_one_division (e i : Nat) (t : TeamStatus) :
    (seed_wild_one e i t).division = t.division := by
  unfold seed_wild_one; split_ifs <;> rfl

@[simp] theorem seed_wild_one_wins (e i : Nat) (t : TeamStatus) :
    (seed_wild_one e i t).wins = t.wins := by
  unfold seed_wild_one; split_ifs <;> rfl

@[simp] theorem seed_wild_one_mpw (e i : Nat) (t : TeamStatus) :
    (seed_wild_one e i t).max_possible_wins = t.max_possible_wins := by
  unfold seed_wild_one; split_ifs <;> rfl

/-- The status written by the wild-card seeding step. -/
theorem seed_wild_one_status (e i : Nat) (t : TeamStatus) :
    (seed_wild_one e i t).status =
      if e < t.wins then "clinched_wildcard" else "in_position" := by
  unfold seed_wild_one; split_ifs <;> rfl

@[simp] theorem classify_wild_card_seed (pool : List TeamStatus) (w : Nat) (t : TeamStatus) :
    (classify_wild_card pool w t).seed = t.seed := by
  unfold classify_wild_card; split_ifs <;> rfl

@[simp] theorem classify_wild_card_team (pool : List TeamStatus) (w : Nat) (t : TeamStatus) :
    (classify_wild_card pool w t).team = t.team := by
  unfold classify_wild_card; split_ifs <;> rfl

@[simp] theorem classify_wild_card_division (pool : List TeamStatus) (w : Nat) (t : TeamStatus) :
    (classify_wild_card pool w t).division = t.division := by
  unfold classify_wild_card; split_ifs <;> rfl

@[simp] theorem classify_wild_card_wins (pool : List TeamStatus) (w : Nat) (t : TeamStatus) :
    (classify_wild_card pool w t).wins = t.wins := by
  unfold classify_wild_card; split_ifs <;> rfl

@[simp] theorem classify_wild_card_mpw (pool : List TeamStatus) (w : Nat) (t : TeamStatus) :
    (classify_wild_card pool w t).max_possible_wins = t.max_possible_wins := by
  unfold classify_wild_card; split_ifs <;> rfl

@[simp] theorem classify_wild_card_gr (pool : List TeamStatus) (w : Nat) (t : TeamStatus) :
    (classify_wild_card pool w t).games_remaining = t.games_remaining := by
  unfold classify_wild_card; split_ifs <;> rfl

/-- The status written by the wild-card elimination math. -/
theorem classify_wild_card_status (pool : List TeamStatus) (w : Nat) (t : TeamStatus) :
    (classify_wild_card pool w t).status =
      if 3 ≤ strictly_ahead pool t then "eliminated"
      else if 3 ≤ strictly_ahead pool t + at_same_level pool t then "in_hunt"
      else if t.max_possible_wins < w then "eliminated"
      else "in_hunt" := by
  unfold classify_wild_card; split_ifs <;> rfl

@[simp] theorem classify_unseeded_seed (teams pool : List TeamStatus) (w : Nat) (t : TeamStatus) :
    (classify_unseeded teams pool w t).seed = t.seed := by
  unfold classify_unseeded
  cases division_leader teams t.division <;> dsimp only
  · simp
  · split_ifs <;> simp

@[simp] theorem classify_unseeded_team (teams pool : List TeamStatus) (w : Nat) (t : TeamStatus) :
    (classify_unseeded teams pool w t).team = t.team := by
  unfold classify_unseeded
  cases division_leader teams t.division <;> dsimp only
  · simp
  · split_ifs <;> simp

@[simp] theorem classify_unseeded_division (teams pool : List TeamStatus) (w : Nat)
    (t : TeamStatus) : (classify_unseeded teams pool w t).division = t.division := by
  unfold classify_unseeded
  cases division_leader teams t.division <;> dsimp only
  · simp
  · split_ifs <;> simp

@[simp] theorem classify_unseeded_wins (teams pool : List TeamStatus) (w : Nat) (t : TeamStatus) :
    (classify_unseeded teams pool w t).wins = t.wins := by
  unfold classify_unseeded
  cases division_leader teams t.division <;> dsimp only
  · simp
  · split_ifs <;> simp

@[simp] theorem classify_unseeded_mpw (teams pool : List TeamStatus) (w : Nat) (t : TeamStatus) :
    (classify_unseeded teams pool w t).max_possible_wins = t.max_possible_wins := by
  unfold classify_unseeded
  cases division_leader teams t.division <;> dsimp only
  · simp
  · split_ifs <;> simp

@[simp] theorem classify_unseeded_gr (teams pool : List TeamStatus) (w : Nat) (t : TeamStatus) :
    (classify_unseeded teams pool w t).games_remaining = t.games_remaining := by
  unfold classify_unseeded
  cases division_leader teams t.division <;> dsimp only
  · simp
  · split_ifs <;> simp

/-- The status written for a team outside the top 7. -/
theorem classify_unseeded_status (teams pool : List TeamStatus) (w : Nat) (t : TeamStatus) :
    (classify_unseeded teams pool w t).status =
      match division_leader teams t.division with
      | some ld =>
        if ld.wins ≤ t.max_possible_wins then "in_hunt"
        else (classify_wild_card pool w t).status
      | none => (classify_wild_card pool w t).status := by
  unfold classify_unseeded
  cases division_leader teams t.division
  · rfl
  · dsimp only
    split_ifs <;> rfl

end LightScore

namespace LightScore

/-! ### The seeding loops -/

/-- Seeds handed out by the division-winner loop: `i+1, i+2, ...` in order. -/
theorem seed_winners_map_seed (teams : List TeamStatus) (l : List TeamStatus) :
    ∀ i : Nat, (seed_winners teams i l).map (fun t => t.seed)
      = (List.range l.length).map (fun j => some (i + j + 1)) := by
  induction l with
  | nil => intro i; rfl
  | cons t rest ih =>
    intro i
    simp only [seed_winners, List.map_cons, seed_winner_one_seed, List.length_cons,
      List.range_succ_eq_map, List.map_map, ih (i + 1)]
    congr 1
    apply List.map_congr_left
    intro j _
    simp only [Function.comp]
    congr 1
    omega

/-- Membership in the division-winner loop output. -/
theorem mem_seed_winners {teams : List TeamStatus} :
    ∀ {l : List TeamStatus} {i : Nat} {x : TeamStatus}, x ∈ seed_winners teams i l →
      ∃ j t, j < l.length ∧ t ∈ l ∧ x = seed_winner_one teams (i + j) t := by
  intro l
  induction l with
  | nil => intro i x h; cases h
  | cons t rest ih =>
    intro i x h
    rcases List.mem_cons.mp h with h | h
    · exact ⟨0, t, by simp, List.mem_cons_self t rest, h⟩
    · obtain ⟨j, u, hj, hu, hx⟩ := ih h
      refine ⟨j + 1, u, by simpa using Nat.succ_lt_succ hj, List.mem_cons_of_mem t hu, ?_⟩
      rw [show i + (j + 1) = i + 1 + j from by omega]
      exact hx

/-- Seeds handed out by the wild-card loop: `4+i+1, 4+i+2, ...` in order. -/
theorem seed_wilds_map_seed (e : Nat) (l : List TeamStatus) :
    ∀ i : Nat, (seed_wilds e i l).map (fun t => t.seed)
      = (List.range l.length).map (fun j => some (4 + (i + j) + 1)) := by
  induction l with
  | nil => intro i; rfl
  | cons t rest ih =>
    intro i
    simp only [seed_wilds, List.map_cons, seed_wild_one_seed, List.length_cons,
      List.range_succ_eq_map, List.map_map, ih (i + 1)]
    congr 1
    apply List.map_congr_left
    intro j _
    simp only [Function.comp]
    congr 1
    omega

/-- The wild-card loop does not change team names. -/
theorem seed_wilds_map_team (e : Nat) (l : List TeamStatus) :
    ∀ i : Nat, (seed_wilds e i l).map (fun t => t.team) = l.map (fun t => t.team) := by
  induction l with
  | nil => intro i; rfl
  | cons t rest ih =>
    intro i
    simp only [seed_wilds, List.map_cons, seed_wild_one_team, ih (i + 1)]

/-- Membership in the wild-card loop output. -/
theorem mem_seed_wilds {e : Nat} :
    ∀ {l : List TeamStatus} {i : Nat} {x : TeamStatus}, x ∈ seed_wilds e i l →
      ∃ j t, j < l.length ∧ t ∈ l ∧ x = seed_wild_one e (i + j) t := by
  intro l
  induction l with
  | nil => intro i x h; cases h
  | cons t rest ih =>
    intro i x h
    rcases List.mem_cons.mp h with h | h
    · exact ⟨0, t, by simp, List.mem_cons_self t rest, h⟩
    · obtain ⟨j, u, hj, hu, hx⟩ := ih h
      refine ⟨j + 1, u, by simpa using Nat.succ_lt_succ hj, List.mem_cons_of_mem t hu, ?_⟩
      rw [show i + (j + 1) = i + 1 + j from by omega]
      exact hx

/-! ### Shape of the engine output -/

/-- Unfolding of `assign_playoff_status` on the main path. -/
theorem assign_playoff_status_eq (teams : List TeamStatus) (h : 7 ≤ teams.length) :
    assign_playoff_status teams =
      seed_winners teams 0 ((sorted_winners teams).take 4) ++
      seed_wilds (eighth_place_max teams) 0 ((sorted_non_winners teams).take 3) ++
      List.insertionSort sort_key_r
        ((sorted_winners teams).drop 4 ++
          ((sorted_non_winners teams).drop 3).map
            (classify_unseeded teams (sorted_non_winners teams) (seventh_place_wins teams))) := by
  unfold assign_playoff_status
  rw [if_neg (by omega)]

/-- Every element of the engine output on the main path arises in one of four
ways: a seeded division winner, a seeded wild card, a division winner beyond
rank 4 left untouched, or a classified team outside the top 7. -/
theorem mem_assign_cases {teams : List TeamStatus} (h7 : 7 ≤ teams.length) {t : TeamStatus}
    (ht : t ∈ assign_playoff_status teams) :
    (∃ j u, j < 4 ∧ u ∈ (sorted_winners teams).take 4 ∧ t = seed_winner_one teams j u)
    ∨ (∃ j u, j < 3 ∧ u ∈ (sorted_non_winners teams).take 3 ∧
        t = seed_wild_one (eighth_place_max teams) j u)
    ∨ t ∈ (sorted_winners teams).drop 4
    ∨ (∃ u, u ∈ (sorted_non_winners teams).drop 3 ∧
        t = classify_unseeded teams (sorted_non_winners teams) (seventh_place_wins teams) u) := by
  rw [assign_playoff_status_eq teams h7] at ht
  rcases List.mem_append.mp ht with h | h
  · rcases List.mem_append.mp h with h | h
    · left
      obtain ⟨j, u, hj, hu, hx⟩ := mem_seed_winners h
      have hlen : ((sorted_winners teams).take 4).length ≤ 4 := by
        simp [List.length_take]
      exact ⟨j, u, by omega, hu, by simpa using hx⟩
    · right; left
      obtain ⟨j, u, hj, hu, hx⟩ := mem_seed_wilds h
      have hlen : ((sorted_non_winners teams).take 3).length ≤ 3 := by
        simp [List.length_take]
      exact ⟨j, u, by omega, hu, by simpa using hx⟩
  · have h' := (List.mem_insertionSort sort_key_r).mp h
    rcases List.mem_append.mp h' with h | h
    · right; right; left; exact h
    · right; right; right
      obtain ⟨u, hu, hx⟩ := List.mem_map.mp h
      exact ⟨u, hu, hx.symm⟩

/-- Division winners beyond rank 4 are input teams. -/
theorem mem_of_mem_sorted_winners {teams x : _} (h : x ∈ sorted_winners teams) :
    x ∈ teams ∧ (leader_names teams).contains x.team = true := by
  unfold sorted_winners div_winners at h
  have := List.mem_filter.mp ((List.mem_insertionSort sort_key_r).mp h)
  exact this

/-- Non-winners are input teams whose name is not a leader name. -/
theorem mem_of_mem_sorted_non_winners {teams x : _} (h : x ∈ sorted_non_winners teams) :
    x ∈ teams ∧ (leader_names teams).contains x.team = false := by
  unfold sorted_non_winners non_winners at h
  have := List.mem_filter.mp ((List.mem_insertionSort sort_key_r).mp h)
  exact ⟨this.1, by simpa using this.2⟩

end LightScore

namespace LightScore

/-! ### Claim C8: early exit below 7 teams -/

/-- C8: a conference with fewer than 7 teams is returned unmodified by the
seeding engine — the same list, every team still carrying its null seed —
and no error value is produced (the engine is a total function). -/
theorem claim8_small_conference_unmodified (recs : List TeamRecord)
    (h : recs.length < 7) :
    seeding_engine recs = team_statuses recs ∧
    (team_statuses recs).all (fun t => t.seed == none) = true := by
  constructor
  · unfold seeding_engine assign_playoff_status
    rw [if_pos (by simpa [team_statuses] using h)]
  · rw [List.all_eq_true]
    intro t ht
    obtain ⟨r, _, rfl⟩ := List.mem_map.mp ht
    rfl

/-- Witness for C8 at a concrete 3-team conference. -/
theorem claim8_witness :
    ex_small.length < 7 ∧
    (seeding_engine ex_small = team_statuses ex_small ∧
      (team_statuses ex_small).all (fun t => t.seed == none) = true) :=
  ⟨by decide, claim8_small_conference_unmodified ex_small (by decide)⟩

/-! ### Claim C6: playoff wins/losses from the bracket replay -/

/-- C6: for every SeedEntry, `playoff_wins + playoff_losses` equals the number
of games that are final, tagged with the team's conference or "Super Bowl",
and contain the team; `playoff_wins` counts exactly those of them won by the
team. -/
theorem claim6_playoff_record_counts_final_games (games : List BracketGame)
    (conf : String) (s : SeedEntry) :
    (process_seed games conf s).playoff_wins + (process_seed games conf s).playoff_losses
      = (games.filter (fun g =>
          (g.conference == conf || g.conference == "Super Bowl") &&
          g.status == "final" && (g.home_team == s.team || g.away_team == s.team))).length
    ∧ (process_seed games conf s).playoff_wins
      = (games.filter (fun g =>
          ((g.conference == conf || g.conference == "Super Bowl") &&
           g.status == "final" && (g.home_team == s.team || g.away_team == s.team)) &&
          g.winner == s.team)).length := by
  constructor
  · show playoff_wins_of conf s.team games + playoff_losses_of conf s.team games = _
    unfold playoff_wins_of playoff_losses_of
    exact length_filter_add_length_filter_not (relevant_games conf s.team games)
      (fun g => g.winner == s.team)
  · show playoff_wins_of conf s.team games = _
    unfold playoff_wins_of relevant_games
    rw [List.filter_filter]
    congr 1
    apply List.filter_congr
    intro g _
    exact Bool.and_comm _ _

/-! ### Claim C7: bracket status assignment -/

/-- C7: a bracket team's status is `super_bowl` exactly when its name is among
the Super Bowl participants (this overrides the eliminated flag); otherwise
the status is `eliminated` exactly when the entry's flag is set, else
`alive`.  With no game tagged "Super Bowl", no status is `super_bowl`. -/
theorem claim7_bracket_status_resolution (games : List BracketGame)
    (conf : String) (s : SeedEntry) :
    ((process_seed games conf s).status =
      if s.team ∈ super_bowl_teams games then "super_bowl"
      else if s.eliminated then "eliminated" else "alive")
    ∧ (games.all (fun g => g.conference != "Super Bowl") = true →
        (process_seed games conf s).status ≠ "super_bowl") := by
  have hstat : (process_seed games conf s).status =
      if s.team ∈ super_bowl_teams games then "super_bowl"
      else if s.eliminated then "eliminated" else "alive" := by
    unfold process_seed
    by_cases hc : s.team ∈ super_bowl_teams games
    · have : (super_bowl_teams games).contains s.team = true := List.elem_iff.mpr hc
      simp [this, hc]
    · have : (super_bowl_teams games).contains s.team = false := by
        rw [Bool.eq_false_iff]
        intro hcon
        exact hc (List.elem_iff.mp hcon)
      by_cases he : s.eliminated <;> simp [this, hc, he]
  refine ⟨hstat, ?_⟩
  intro hall
  have hnil : super_bowl_teams games = [] := by
    unfold super_bowl_teams
    rw [show games.filter (fun g => g.conference == "Super Bowl") = [] from ?_]
    · rfl
    · rw [List.filter_eq_nil_iff]
      intro g hg
      have := List.all_eq_true.mp hall g hg
      simpa [bne] using this
  rw [hstat, hnil]
  simp only [List.not_mem_nil, if_false]
  by_cases he : s.eliminated <;> simp [he]

/-- Witness for C7: team "A" of the example bracket is eliminated and not in
the Super Bowl. -/
theorem claim7_witness :
    ex_games_no_sb.all (fun g => g.conference != "Super Bowl") = true ∧
    ((process_seed ex_games_no_sb "AFC" ex_seed_a).status =
      if ex_seed_a.team ∈ super_bowl_teams ex_games_no_sb then "super_bowl"
      else if ex_seed_a.eliminated then "eliminated" else "alive") ∧
    (process_seed ex_games_no_sb "AFC" ex_seed_a).status ≠ "super_bowl" :=
  ⟨by decide,
   (claim7_bracket_status_resolution ex_games_no_sb "AFC" ex_seed_a).1,
   (claim7_bracket_status_resolution ex_games_no_sb "AFC" ex_seed_a).2 (by decide)⟩

end LightScore

namespace LightScore

/-! ### Facts about the initial team rows -/

theorem length_team_statuses (recs : List TeamRecord) :
    (team_statuses recs).length = recs.length := by
  simp [team_statuses]

theorem team_statuses_seed_none {recs : List TeamRecord} :
    ∀ t ∈ team_statuses recs, t.seed = none := by
  intro t ht
  obtain ⟨r, _, rfl⟩ := List.mem_map.mp ht
  rfl

theorem team_statuses_status {recs : List TeamRecord} :
    ∀ t ∈ team_statuses recs, t.status = "in_hunt" := by
  intro t ht
  obtain ⟨r, _, rfl⟩ := List.mem_map.mp ht
  rfl

theorem team_statuses_mpw {recs : List TeamRecord} :
    ∀ t ∈ team_statuses recs, t.max_possible_wins = t.wins + t.games_remaining := by
  intro t ht
  obtain ⟨r, _, rfl⟩ := List.mem_map.mp ht
  rfl

/-- `div_second_max` only reads the division and name of its second
argument. -/
theorem div_second_max_congr (teams : List TeamStatus) {a b : TeamStatus}
    (hd : a.division = b.division) (htm : a.team = b.team) :
    div_second_max teams a = div_second_max teams b := by
  unfold div_second_max
  rw [hd, htm]

/-- Teams without a seed in the final unseeded block, given null input seeds. -/
theorem unseeded_block_seed_none (teams : List TeamStatus)
    (hseed : ∀ u ∈ teams, u.seed = none) :
    ∀ x ∈ List.insertionSort sort_key_r
        ((sorted_winners teams).drop 4 ++
          ((sorted_non_winners teams).drop 3).map
            (classify_unseeded teams (sorted_non_winners teams)
            (seventh_place_wins teams))),
      x.seed = none := by
  intro x hx
  have hx' := (List.mem_insertionSort sort_key_r).mp hx
  rcases List.mem_append.mp hx' with h | h
  · exact hseed x (mem_of_mem_sorted_winners (List.mem_of_mem_drop h)).1
  · obtain ⟨u, hu, rfl⟩ := List.mem_map.mp h
    rw [classify_unseeded_seed]
    exact hseed u (mem_of_mem_sorted_non_winners (List.mem_of_mem_drop hu)).1

/-- The seeded division winners are exactly the output teams with a seed in
1..4. -/
theorem filter_seed_14 (teams : List TeamStatus) (h7 : 7 ≤ teams.length)
    (hseed : ∀ u ∈ teams, u.seed = none) :
    (assign_playoff_status teams).filter (seed_in 1 4)
      = seed_winners teams 0 ((sorted_winners teams).take 4) := by
  rw [assign_playoff_status_eq teams h7, List.filter_append, List.filter_append]
  have hA : (seed_winners teams 0 ((sorted_winners teams).take 4)).filter (seed_in 1 4)
      = seed_winners teams 0 ((sorted_winners teams).take 4) := by
    apply List.filter_eq_self.mpr
    intro x hx
    obtain ⟨j, u, hj, hu, rfl⟩ := mem_seed_winners hx
    have hlen : ((sorted_winners teams).take 4).length ≤ 4 := by simp
    simp [seed_in]
    omega
  have hB : (seed_wilds (eighth_place_max teams) 0
      ((sorted_non_winners teams).take 3)).filter (seed_in 1 4) = [] := by
    apply List.filter_eq_nil_iff.mpr
    intro x hx
    obtain ⟨j, u, hj, hu, rfl⟩ := mem_seed_wilds hx
    have hlen : ((sorted_non_winners teams).take 3).length ≤ 3 := by simp
    simp [seed_in]
    omega
  have hC : (List.insertionSort sort_key_r
      ((sorted_winners teams).drop 4 ++
        ((sorted_non_winners teams).drop 3).map
          (classify_unseeded teams (sorted_non_winners teams)
            (seventh_place_wins teams)))).filter (seed_in 1 4) = [] := by
    apply List.filter_eq_nil_iff.mpr
    intro x hx
    have hn := unseeded_block_seed_none teams hseed x hx
    simp [seed_in, hn]
  rw [hA, hB, hC, List.append_nil, List.append_nil]

/-- The seeded wild cards are exactly the output teams with a seed in 5..7. -/
theorem filter_seed_57 (teams : List TeamStatus) (h7 : 7 ≤ teams.length)
    (hseed : ∀ u ∈ teams, u.seed = none) :
    (assign_playoff_status teams).filter (seed_in 5 7)
      = seed_wilds (eighth_place_max teams) 0 ((sorted_non_winners teams).take 3) := by
  rw [assign_playoff_status_eq teams h7, List.filter_append, List.filter_append]
  have hA : (seed_winners teams 0 ((sorted_winners teams).take 4)).filter (seed_in 5 7)
      = [] := by
    apply List.filter_eq_nil_iff.mpr
    intro x hx
    obtain ⟨j, u, hj, hu, rfl⟩ := mem_seed_winners hx
    have hlen : ((sorted_winners teams).take 4).length ≤ 4 := by simp
    simp [seed_in]
    omega
  have hB : (seed_wilds (eighth_place_max teams) 0
      ((sorted_non_winners teams).take 3)).filter (seed_in 5 7)
      = seed_wilds (eighth_place_max teams) 0 ((sorted_non_winners teams).take 3) := by
    apply List.filter_eq_self.mpr
    intro x hx
    obtain ⟨j, u, hj, hu, rfl⟩ := mem_seed_wilds hx
    have hlen : ((sorted_non_winners teams).take 3).length ≤ 3 := by simp
    simp [seed_in]
    omega
  have hC : (List.insertionSort sort_key_r
      ((sorted_winners teams).drop 4 ++
        ((sorted_non_winners teams).drop 3).map
          (classify_unseeded teams (sorted_non_winners teams)
            (seventh_place_wins teams)))).filter (seed_in 5 7) = [] := by
    apply List.filter_eq_nil_iff.mpr
    intro x hx
    have hn := unseeded_block_seed_none teams hseed x hx
    simp [seed_in, hn]
  rw [hA, hB, hC, List.nil_append, List.append_nil]

end LightScore

namespace LightScore

/-! ### Claim C3: division-winner clinch statuses -/

/-- C3: a team seeded `i+1` for `i < 4` (a seeded division winner) gets status
`clinched_bye` (at rank 0) or `clinched_division` (ranks 1..3) exactly when
its wins strictly exceed the maximum `max_possible_wins` of the other teams of
its division, and `in_position` otherwise. -/
theorem claim3_division_winner_clinch (recs : List TeamRecord) (t : TeamStatus) (i : Nat)
    (h7 : 7 ≤ recs.length) (ht : t ∈ seeding_engine recs) (hi : i < 4)
    (hs : t.seed = some (i + 1)) :
    t.status =
      if div_second_max (team_statuses recs) t < t.wins then
        (if i = 0 then "clinched_bye" else "clinched_division")
      else "in_position" := by
  have h7' : 7 ≤ (team_statuses recs).length := by rw [length_team_statuses]; exact h7
  have ht' : t ∈ assign_playoff_status (team_statuses recs) := ht
  rcases mem_assign_cases h7' ht' with ⟨j, u, hj, hu, rfl⟩ | ⟨j, u, hj, hu, rfl⟩ | hdrop |
    ⟨u, hu, rfl⟩
  · have hji : j = i := by
      rw [seed_winner_one_seed] at hs
      have := Option.some.inj hs
      omega
    subst hji
    rw [seed_winner_one_status]
    have hd : div_second_max (team_statuses recs)
        (seed_winner_one (team_statuses recs) j u) = div_second_max (team_statuses recs) u :=
      div_second_max_congr _ (seed_winner_one_division _ _ _) (seed_winner_one_team _ _ _)
    rw [hd, seed_winner_one_wins]
  · exfalso
    rw [seed_wild_one_seed] at hs
    have := Option.some.inj hs
    omega
  · exfalso
    have hn := team_statuses_seed_none _
      (mem_of_mem_sorted_winners (List.mem_of_mem_drop hdrop)).1
    rw [hn] at hs
    cases hs
  · exfalso
    rw [classify_unseeded_seed] at hs
    have hn := team_statuses_seed_none _
      (mem_of_mem_sorted_non_winners (List.mem_of_mem_drop hu)).1
    rw [hn] at hs
    cases hs

/-- Witness for C3 at the 16-team conference: the #2 seed has clinched its
division. -/
theorem claim3_witness :
    7 ≤ ex_conference.length ∧
    (seeding_engine ex_conference).getD 1 default ∈ seeding_engine ex_conference ∧
    1 < 4 ∧
    ((seeding_engine ex_conference).getD 1 default).seed = some (1 + 1) ∧
    ((seeding_engine ex_conference).getD 1 default).status =
      (if div_second_max (team_statuses ex_conference)
          ((seeding_engine ex_conference).getD 1 default) <
          ((seeding_engine ex_conference).getD 1 default).wins then
        (if 1 = 0 then "clinched_bye" else "clinched_division")
      else "in_position") :=
  ⟨by decide, by decide, by decide, by decide,
   claim3_division_winner_clinch ex_conference _ 1 (by decide) (by decide) (by decide)
     (by decide)⟩

/-! ### Claim C4: wild-card seeding and clinch statuses -/

/-- C4 counterexample: a 7-team conference with five divisions has only two
non-winners, so the engine hands out only seeds 5 and 6 — it does not seed
three wild cards. -/
theorem claim4_counterexample :
    7 ≤ ex_five_divisions.length ∧
    ((seeding_engine ex_five_divisions).filter (seed_in 5 7)).map (fun x => x.seed)
      = [some 5, some 6] ∧
    ¬ (((seeding_engine ex_five_divisions).filter (seed_in 5 7)).map (fun x => x.seed)
        = [some 5, some 6, some 7]) := by
  decide

/-- C4 (amended): in a conference of at least 7 teams, at least 3 of which
are not division leaders, the output teams seeded 5..7 are exactly the top 3
non-winners by sort key, carrying seeds 5, 6, 7 in order, and such a team's
status is `clinched_wildcard` exactly when its wins strictly exceed
`eighth_place_max`, else `in_position`. -/
theorem claim4_wild_card_seeding (recs : List TeamRecord) (t : TeamStatus)
    (h7 : 7 ≤ recs.length) (h3 : 3 ≤ (non_winners (team_statuses recs)).length)
    (ht : t ∈ seeding_engine recs) (hst : seed_in 5 7 t = true) :
    ((seeding_engine recs).filter (seed_in 5 7)).map (fun x => x.team)
        = ((sorted_non_winners (team_statuses recs)).take 3).map (fun x => x.team)
    ∧ ((seeding_engine recs).filter (seed_in 5 7)).map (fun x => x.seed)
        = [some 5, some 6, some 7]
    ∧ t.status = (if eighth_place_max (team_statuses recs) < t.wins then "clinched_wildcard"
        else "in_position") := by
  have h7' : 7 ≤ (team_statuses recs).length := by rw [length_team_statuses]; exact h7
  have hfil : (seeding_engine recs).filter (seed_in 5 7)
      = seed_wilds (eighth_place_max (team_statuses recs)) 0
          ((sorted_non_winners (team_statuses recs)).take 3) :=
    filter_seed_57 _ h7' (fun u hu => team_statuses_seed_none u hu)
  refine ⟨?_, ?_, ?_⟩
  · rw [hfil, seed_wilds_map_team]
  · rw [hfil, seed_wilds_map_seed]
    have hlen : ((sorted_non_winners (team_statuses recs)).take 3).length = 3 := by
      simp only [List.length_take, sorted_non_winners, List.length_insertionSort]
      omega
    rw [hlen]
    decide
  · have ht' : t ∈ assign_playoff_status (team_statuses recs) := ht
    rcases mem_assign_cases h7' ht' with ⟨j, u, hj, hu, rfl⟩ | ⟨j, u, hj, hu, rfl⟩ | hdrop |
      ⟨u, hu, rfl⟩
    · exfalso
      have hlen : ((sorted_winners (team_statuses recs)).take 4).length ≤ 4 := by simp
      simp [seed_in] at hst
      omega
    · rw [seed_wild_one_status, seed_wild_one_wins]
    · exfalso
      have hn := team_statuses_seed_none _
        (mem_of_mem_sorted_winners (List.mem_of_mem_drop hdrop)).1
      simp [seed_in, hn] at hst
    · exfalso
      have hn := team_statuses_seed_none _
        (mem_of_mem_sorted_non_winners (List.mem_of_mem_drop hu)).1
      simp [seed_in, hn] at hst

/-- Witness for C4 at the 16-team conference: the #5 seed. -/
theorem claim4_witness :
    7 ≤ ex_conference.length ∧
    3 ≤ (non_winners (team_statuses ex_conference)).length ∧
    (seeding_engine ex_conference).getD 4 default ∈ seeding_engine ex_conference ∧
    seed_in 5 7 ((seeding_engine ex_conference).getD 4 default) = true ∧
    (((seeding_engine ex_conference).filter (seed_in 5 7)).map (fun x => x.team)
        = ((sorted_non_winners (team_statuses ex_conference)).take 3).map (fun x => x.team)
    ∧ ((seeding_engine ex_conference).filter (seed_in 5 7)).map (fun x => x.seed)
        = [some 5, some 6, some 7]
    ∧ ((seeding_engine ex_conference).getD 4 default).status =
        (if eighth_place_max (team_statuses ex_conference) <
            ((seeding_engine ex_conference).getD 4 default).wins then "clinched_wildcard"
        else "in_position")) :=
  ⟨by decide, by decide, by decide, by decide,
   claim4_wild_card_seeding ex_conference _ (by decide) (by decide) (by decide) (by decide)⟩

/-! ### Claim C10: seeded/unseeded status partition -/

/-- C10: on the main path, a seeded team's status is one of `clinched_bye`,
`clinched_division`, `clinched_wildcard`, `in_position`, and an unseeded
team's status is `in_hunt` or `eliminated`; in particular `alive` and
`super_bowl` never occur in regular-season output and no seeded team is
`eliminated`. -/
theorem claim10_status_partition (recs : List TeamRecord) (t : TeamStatus)
    (h7 : 7 ≤ recs.length) (ht : t ∈ seeding_engine recs) :
    t.status ∈ (if t.seed = none then ["in_hunt", "eliminated"]
      else ["clinched_bye", "clinched_division", "clinched_wildcard", "in_position"]) := by
  have h7' : 7 ≤ (team_statuses recs).length := by rw [length_team_statuses]; exact h7
  have ht' : t ∈ assign_playoff_status (team_statuses recs) := ht
  rcases mem_assign_cases h7' ht' with ⟨j, u, hj, hu, rfl⟩ | ⟨j, u, hj, hu, rfl⟩ | hdrop |
    ⟨u, hu, rfl⟩
  · rw [if_neg (by simp), seed_winner_one_status]
    split_ifs <;> simp
  · rw [if_neg (by simp), seed_wild_one_status]
    split_ifs <;> simp
  · have hm := (mem_of_mem_sorted_winners (List.mem_of_mem_drop hdrop)).1
    rw [if_pos (team_statuses_seed_none _ hm), team_statuses_status _ hm]
    simp
  · have hm := (mem_of_mem_sorted_non_winners (List.mem_of_mem_drop hu)).1
    rw [if_pos (by rw [classify_unseeded_seed]; exact team_statuses_seed_none _ hm)]
    rw [classify_unseeded_status]
    cases hld : division_leader (team_statuses recs) u.division with
    | none =>
      rw [classify_wild_card_status]
      split_ifs <;> simp
    | some ld =>
      dsimp only
      split_ifs with h1
      · simp
      · rw [classify_wild_card_status]
        split_ifs <;> simp

/-- Witness for C10 at the 16-team conference: the #1 seed. -/
theorem claim10_witness :
    7 ≤ ex_conference.length ∧
    (seeding_engine ex_conference).getD 0 default ∈ seeding_engine ex_conference ∧
    ((seeding_engine ex_conference).getD 0 default).status ∈
      (if ((seeding_engine ex_conference).getD 0 default).seed = none then
        ["in_hunt", "eliminated"]
      else ["clinched_bye", "clinched_division", "clinched_wildcard", "in_position"]) :=
  ⟨by decide, by decide,
   claim10_status_partition ex_conference _ (by decide) (by decide)⟩

end LightScore

namespace LightScore

/-! ### Claim C1: shape of the seed assignment -/

theorem length_seed_winners (teams : List TeamStatus) (l : List TeamStatus) :
    ∀ i : Nat, (seed_winners teams i l).length = l.length := by
  induction l with
  | nil => intro i; rfl
  | cons t rest ih => intro i; simp [seed_winners, ih (i + 1)]

theorem length_seed_wilds (e : Nat) (l : List TeamStatus) :
    ∀ i : Nat, (seed_wilds e i l).length = l.length := by
  induction l with
  | nil => intro i; rfl
  | cons t rest ih => intro i; simp [seed_wilds, ih (i + 1)]

theorem filterMap_seed_seed_winners (teams : List TeamStatus) (l : List TeamStatus) :
    ∀ i : Nat, (seed_winners teams i l).filterMap (fun t => t.seed)
      = (List.range l.length).map (fun j => i + j + 1) := by
  induction l with
  | nil => intro i; rfl
  | cons t rest ih =>
    intro i
    simp only [seed_winners, List.filterMap_cons, seed_winner_one_seed, List.length_cons,
      List.range_succ_eq_map, List.map_cons, List.map_map, ih (i + 1)]
    congr 1
    apply List.map_congr_left
    intro j _
    simp only [Function.comp]
    omega

theorem filterMap_seed_seed_wilds (e : Nat) (l : List TeamStatus) :
    ∀ i : Nat, (seed_wilds e i l).filterMap (fun t => t.seed)
      = (List.range l.length).map (fun j => 4 + (i + j) + 1) := by
  induction l with
  | nil => intro i; rfl
  | cons t rest ih =>
    intro i
    simp only [seed_wilds, List.filterMap_cons, seed_wild_one_seed, List.length_cons,
      List.range_succ_eq_map, List.map_cons, List.map_map, ih (i + 1)]
    congr 1
    apply List.map_congr_left
    intro j _
    simp only [Function.comp]
    omega

/-- The partition of the conference into winners and non-winners is exhaustive. -/
theorem length_winners_add_non_winners (teams : List TeamStatus) :
    (div_winners teams).length + (non_winners teams).length = teams.length :=
  length_filter_add_length_filter_not teams (fun t => (leader_names teams).contains t.team)

/-- C1 counterexample: a 7-team conference with only two divisions gets only
2 teams seeded 1-4, not 4. -/
theorem claim1_counterexample :
    7 ≤ ex_two_divisions.length ∧
    ((seeding_engine ex_two_divisions).filter (seed_in 1 4)).length = 2 ∧
    ¬ ((seeding_engine ex_two_divisions).filter (seed_in 1 4)).length = 4 := by
  decide

/-- C1 (amended): in a conference with at least 4 division leaders and at
least 3 non-leaders (hence ≥ 7 teams), exactly 4 teams receive seeds 1-4, all
of them division leaders, exactly 3 teams receive seeds 5-7, and no seed
value is assigned to two different teams. -/
theorem claim1_seed_partition (recs : List TeamRecord) (t : TeamStatus)
    (h4 : 4 ≤ (div_winners (team_statuses recs)).length)
    (h3 : 3 ≤ (non_winners (team_statuses recs)).length)
    (ht : t ∈ seeding_engine recs) (h14 : seed_in 1 4 t = true) :
    ((seeding_engine recs).filter (seed_in 1 4)).length = 4
    ∧ (leader_names (team_statuses recs)).contains t.team = true
    ∧ ((seeding_engine recs).filter (seed_in 5 7)).length = 3
    ∧ ((seeding_engine recs).filterMap (fun x => x.seed)).Nodup := by
  have h7' : 7 ≤ (team_statuses recs).length := by
    have := length_winners_add_non_winners (team_statuses recs)
    omega
  have hseed : ∀ u ∈ team_statuses recs, u.seed = none :=
    fun u hu => team_statuses_seed_none u hu
  have hlen4 : ((sorted_winners (team_statuses recs)).take 4).length = 4 := by
    simp only [List.length_take, sorted_winners, List.length_insertionSort]
    omega
  have hlen3 : ((sorted_non_winners (team_statuses recs)).take 3).length = 3 := by
    simp only [List.length_take, sorted_non_winners, List.length_insertionSort]
    omega
  refine ⟨?_, ?_, ?_, ?_⟩
  · have hfil : (seeding_engine recs).filter (seed_in 1 4)
        = seed_winners (team_statuses recs) 0
            ((sorted_winners (team_statuses recs)).take 4) :=
      filter_seed_14 _ h7' hseed
    rw [hfil, length_seed_winners, hlen4]
  · have ht' : t ∈ assign_playoff_status (team_statuses recs) := ht
    rcases mem_assign_cases h7' ht' with ⟨j, u, hj, hu, rfl⟩ | ⟨j, u, hj, hu, rfl⟩ | hdrop |
      ⟨u, hu, rfl⟩
    · rw [seed_winner_one_team]
      exact (mem_of_mem_sorted_winners (List.mem_of_mem_take hu)).2
    · exfalso
      simp [seed_in] at h14
      omega
    · exfalso
      have hn := team_statuses_seed_none _
        (mem_of_mem_sorted_winners (List.mem_of_mem_drop hdrop)).1
      simp [seed_in, hn] at h14
    · exfalso
      have hn := team_statuses_seed_none _
        (mem_of_mem_sorted_non_winners (List.mem_of_mem_drop hu)).1
      simp [seed_in, hn] at h14
  · have hfil : (seeding_engine recs).filter (seed_in 5 7)
        = seed_wilds (eighth_place_max (team_statuses recs)) 0
            ((sorted_non_winners (team_statuses recs)).take 3) :=
      filter_seed_57 _ h7' hseed
    rw [hfil, length_seed_wilds, hlen3]
  · have hout := assign_playoff_status_eq (team_statuses recs) h7'
    have : (seeding_engine recs).filterMap (fun x => x.seed)
        = ((seed_winners (team_statuses recs) 0
            ((sorted_winners (team_statuses recs)).take 4)).filterMap (fun x => x.seed))
          ++ ((seed_wilds (eighth_place_max (team_statuses recs)) 0
            ((sorted_non_winners (team_statuses recs)).take 3)).filterMap (fun x => x.seed))
          ++ ((List.insertionSort sort_key_r
            ((sorted_winners (team_statuses recs)).drop 4 ++
              ((sorted_non_winners (team_statuses recs)).drop 3).map
                (classify_unseeded (team_statuses recs)
                  (sorted_non_winners (team_statuses recs))
                  (seventh_place_wins (team_statuses recs))))).filterMap
            (fun x => x.seed)) := by
      show (assign_playoff_status (team_statuses recs)).filterMap (fun x => x.seed) = _
      rw [hout, List.filterMap_append, List.filterMap_append]
    rw [this, filterMap_seed_seed_winners, filterMap_seed_seed_wilds, hlen4, hlen3]
    rw [show (List.insertionSort sort_key_r
        ((sorted_winners (team_statuses recs)).drop 4 ++
          ((sorted_non_winners (team_statuses recs)).drop 3).map
            (classify_unseeded (team_statuses recs)
              (sorted_non_winners (team_statuses recs))
              (seventh_place_wins (team_statuses recs))))).filterMap
        (fun x => x.seed) = [] from ?_]
    · decide
    · rw [List.filterMap_eq_nil_iff]
      intro x hx
      exact unseeded_block_seed_none (team_statuses recs) hseed x hx

/-- Witness for C1 at the 16-team conference: the #1 seed. -/
theorem claim1_witness :
    4 ≤ (div_winners (team_statuses ex_conference)).length ∧
    3 ≤ (non_winners (team_statuses ex_conference)).length ∧
    (seeding_engine ex_conference).getD 0 default ∈ seeding_engine ex_conference ∧
    seed_in 1 4 ((seeding_engine ex_conference).getD 0 default) = true ∧
    (((seeding_engine ex_conference).filter (seed_in 1 4)).length = 4
    ∧ (leader_names (team_statuses ex_conference)).contains
        ((seeding_engine ex_conference).getD 0 default).team = true
    ∧ ((seeding_engine ex_conference).filter (seed_in 5 7)).length = 3
    ∧ ((seeding_engine ex_conference).filterMap (fun x => x.seed)).Nodup) :=
  ⟨by decide, by decide, by decide, by decide,
   claim1_seed_partition ex_conference _ (by decide) (by decide) (by decide) (by decide)⟩

end LightScore

namespace LightScore

/-! ### Division leaders -/

theorem mem_of_head_option {α : Type} {l : List α} {a : α} (h : l.head? = some a) :
    a ∈ l := by
  cases l with
  | nil => cases h
  | cons b t =>
    have : b = a := by simpa using h
    rw [← this]
    exact List.mem_cons_self b t

/-- A division leader belongs to the conference and to its division. -/
theorem division_leader_mem {teams : List TeamStatus} {d : String} {ld : TeamStatus}
    (h : division_leader teams d = some ld) : ld ∈ teams ∧ ld.division = d := by
  unfold division_leader at h
  have hm := (List.mem_insertionSort sort_key_r).mp (mem_of_head_option h)
  have hf := List.mem_filter.mp hm
  exact ⟨hf.1, by simpa using hf.2⟩

/-- Every team's division has a leader. -/
theorem division_leader_exists {teams : List TeamStatus} {t : TeamStatus} (ht : t ∈ teams) :
    ∃ ld, division_leader teams t.division = some ld := by
  unfold division_leader
  cases hsort : List.insertionSort sort_key_r
      (teams.filter (fun x => x.division == t.division)) with
  | nil =>
    exfalso
    have : t ∈ List.insertionSort sort_key_r
        (teams.filter (fun x => x.division == t.division)) :=
      (List.mem_insertionSort sort_key_r).mpr (List.mem_filter.mpr ⟨ht, by simp⟩)
    rw [hsort] at this
    cases this
  | cons a l => exact ⟨a, rfl⟩

/-- The team names of the initial rows are the input names. -/
theorem team_statuses_names (recs : List TeamRecord) :
    (team_statuses recs).map (fun t => t.team) = recs.map (fun r => r.team) := by
  unfold team_statuses
  rw [List.map_map]
  apply List.map_congr_left
  intro r _
  rfl

/-- With pairwise-distinct names, a division winner is the leader of its own
division. -/
theorem division_leader_self_of_winner {teams : List TeamStatus} {t : TeamStatus}
    (hnames : (teams.map (fun x => x.team)).Nodup) (ht : t ∈ teams)
    (hw : (leader_names teams).contains t.team = true) :
    division_leader teams t.division = some t := by
  have hmem : t.team ∈ leader_names teams := by simpa using hw
  unfold leader_names at hmem
  obtain ⟨d, hd, hmap⟩ := List.mem_filterMap.mp hmem
  obtain ⟨ld, hld, hldteam⟩ := Option.map_eq_some'.mp hmap
  obtain ⟨hldmem, hlddiv⟩ := division_leader_mem hld
  have hldt : ld = t := List.inj_on_of_nodup_map hnames hldmem ht hldteam
  rw [hldt] at hld hlddiv
  rw [hlddiv]
  exact hld

/-- The wild-card counts do not depend on the order of the pool. -/
theorem strictly_ahead_sorted (teams : List TeamStatus) (t : TeamStatus) :
    strictly_ahead (sorted_non_winners teams) t = strictly_ahead (non_winners teams) t := by
  unfold strictly_ahead sorted_non_winners
  rw [← List.countP_eq_length_filter, ← List.countP_eq_length_filter]
  exact (List.perm_insertionSort sort_key_r (non_winners teams)).countP_eq _

/-- The wild-card counts do not depend on the order of the pool. -/
theorem at_same_level_sorted (teams : List TeamStatus) (t : TeamStatus) :
    at_same_level (sorted_non_winners teams) t = at_same_level (non_winners teams) t := by
  unfold at_same_level sorted_non_winners
  rw [← List.countP_eq_length_filter, ← List.countP_eq_length_filter]
  exact (List.perm_insertionSort sort_key_r (non_winners teams)).countP_eq _

/-- `spec_unseeded_status` reads only the division, name and
`max_possible_wins` of its team argument. -/
theorem spec_unseeded_status_congr (teams : List TeamStatus) {a b : TeamStatus}
    (hd : a.division = b.division) (htm : a.team = b.team)
    (hm : a.max_possible_wins = b.max_possible_wins) :
    spec_unseeded_status teams a = spec_unseeded_status teams b := by
  unfold spec_unseeded_status strictly_ahead at_same_level
  simp only [hd, htm, hm]

/-- The engine's classification of a team outside the top 7 computes the
specification policy. -/
theorem classify_unseeded_status_eq_spec (teams : List TeamStatus) (u : TeamStatus) :
    (classify_unseeded teams (sorted_non_winners teams) (seventh_place_wins teams) u).status
      = spec_unseeded_status teams u := by
  rw [classify_unseeded_status]
  unfold spec_unseeded_status
  cases hld : division_leader teams u.division with
  | none =>
    dsimp only
    rw [classify_wild_card_status, strictly_ahead_sorted, at_same_level_sorted]
  | some ld =>
    dsimp only
    by_cases h1 : ld.wins ≤ u.max_possible_wins
    · rw [if_pos h1, if_pos h1]
    · rw [if_neg h1, if_neg h1, classify_wild_card_status, strictly_ahead_sorted,
        at_same_level_sorted]

/-! ### Claim C2: classification of unseeded teams -/

/-- C2: every unseeded output team's status follows the specification's policy
(division race first, then the wild-card counts against the non-winner pool,
then the seventh-place cutoff), for conferences with pairwise-distinct team
names. -/
theorem claim2_unseeded_status_policy (recs : List TeamRecord) (t : TeamStatus)
    (hnames : (recs.map (fun r => r.team)).Nodup) (h7 : 7 ≤ recs.length)
    (ht : t ∈ seeding_engine recs) (hs : t.seed = none) :
    t.status = spec_unseeded_status (team_statuses recs) t := by
  have h7' : 7 ≤ (team_statuses recs).length := by rw [length_team_statuses]; exact h7
  have hnames' : ((team_statuses recs).map (fun x => x.team)).Nodup := by
    rw [team_statuses_names]
    exact hnames
  have ht' : t ∈ assign_playoff_status (team_statuses recs) := ht
  rcases mem_assign_cases h7' ht' with ⟨j, u, hj, hu, rfl⟩ | ⟨j, u, hj, hu, rfl⟩ | hdrop |
    ⟨u, hu, rfl⟩
  · exfalso
    rw [seed_winner_one_seed] at hs
    cases hs
  · exfalso
    rw [seed_wild_one_seed] at hs
    cases hs
  · obtain ⟨htm, hw⟩ := mem_of_mem_sorted_winners (List.mem_of_mem_drop hdrop)
    rw [team_statuses_status _ htm]
    unfold spec_unseeded_status
    rw [division_leader_self_of_winner hnames' htm hw]
    dsimp only
    rw [if_pos]
    have := team_statuses_mpw _ htm
    omega
  · rw [classify_unseeded_status_eq_spec]
    exact (spec_unseeded_status_congr (team_statuses recs)
      (classify_unseeded_division _ _ _ _) (classify_unseeded_team _ _ _ _)
      (classify_unseeded_mpw _ _ _ _)).symm

/-- Witness for C2 at the 16-team conference: the first unseeded team. -/
theorem claim2_witness :
    (ex_conference.map (fun r => r.team)).Nodup ∧
    7 ≤ ex_conference.length ∧
    (seeding_engine ex_conference).getD 7 default ∈ seeding_engine ex_conference ∧
    ((seeding_engine ex_conference).getD 7 default).seed = none ∧
    ((seeding_engine ex_conference).getD 7 default).status =
      spec_unseeded_status (team_statuses ex_conference)
        ((seeding_engine ex_conference).getD 7 default) :=
  ⟨by decide, by decide, by decide, by decide,
   claim2_unseeded_status_policy ex_conference _ (by decide) (by decide) (by decide)
     (by decide)⟩

end LightScore

namespace LightScore

/-! ### Claim C5: finished teams below the cutoff -/

/-- Names remain pairwise distinct in the sorted non-winner pool. -/
theorem nodup_names_sorted_non_winners (teams : List TeamStatus)
    (h : (teams.map (fun x => x.team)).Nodup) :
    ((sorted_non_winners teams).map (fun x => x.team)).Nodup := by
  have hperm := (List.perm_insertionSort sort_key_r (non_winners teams)).map
    (fun x => x.team)
  apply hperm.nodup_iff.mpr
  exact List.Nodup.sublist ((List.filter_sublist teams).map (fun x => x.team)) h

/-- The top of the sorted non-winner pool: its first three teams all have at
least `seventh_place_wins` wins. -/
theorem sorted_non_winners_top3 (teams : List TeamStatus)
    (h : 3 < (sorted_non_winners teams).length) :
    ∃ a b c rest, sorted_non_winners teams = a :: b :: c :: rest ∧
      seventh_place_wins teams = c.wins ∧ c.wins ≤ b.wins ∧ c.wins ≤ a.wins := by
  have hp : (sorted_non_winners teams).Pairwise (fun x y => sort_key_le x y = true) :=
    pairwise_insertionSort_sort_key (non_winners teams)
  cases hnw : sorted_non_winners teams with
  | nil => rw [hnw] at h; simp at h
  | cons a l1 =>
    cases l1 with
    | nil => rw [hnw] at h; simp at h
    | cons b l2 =>
      cases l2 with
      | nil => rw [hnw] at h; simp at h
      | cons c rest =>
        rw [hnw] at hp
        have hab := (List.pairwise_cons.mp hp).1 b (by simp)
        have hac := (List.pairwise_cons.mp hp).1 c (by simp)
        have hbc := (List.pairwise_cons.mp (List.pairwise_cons.mp hp).2).1 c (by simp)
        refine ⟨a, b, c, rest, rfl, ?_, wins_le_of_sort_key_le hbc,
          wins_le_of_sort_key_le hac⟩
        unfold seventh_place_wins
        rw [hnw] at h ⊢
        rw [if_pos (by simp)]
        rfl

/-- C5 counterexample: team "Xte" has finished its season (`games_remaining =
0`) with `max_possible_wins` strictly below `seventh_place_wins`, yet it is
classified `in_hunt` (it is tied with its division leader), not
`eliminated`. -/
theorem claim5_counterexample :
    7 ≤ ex_division_race.length ∧
    ((seeding_engine ex_division_race).getD 7 default).team = "Xte" ∧
    (seeding_engine ex_division_race).getD 7 default ∈ seeding_engine ex_division_race ∧
    ((seeding_engine ex_division_race).getD 7 default).seed = none ∧
    ((seeding_engine ex_division_race).getD 7 default).games_remaining = 0 ∧
    ((seeding_engine ex_division_race).getD 7 default).max_possible_wins <
      seventh_place_wins (team_statuses ex_division_race) ∧
    ((seeding_engine ex_division_race).getD 7 default).status ≠ "eliminated" := by
  decide

/-- C5 (amended): an unseeded team with 0 games remaining whose
`max_possible_wins` is strictly below both its division leader's wins and
`seventh_place_wins` is classified `eliminated` (team names pairwise
distinct). -/
theorem claim5_finished_below_cutoff_eliminated (recs : List TeamRecord) (t : TeamStatus)
    (hnames : (recs.map (fun r => r.team)).Nodup) (h7 : 7 ≤ recs.length)
    (ht : t ∈ seeding_engine recs) (hs : t.seed = none)
    (hgr : t.games_remaining = 0)
    (hld : below_division_leader (team_statuses recs) t = true)
    (h7th : t.max_possible_wins < seventh_place_wins (team_statuses recs)) :
    t.status = "eliminated" := by
  have h7' : 7 ≤ (team_statuses recs).length := by rw [length_team_statuses]; exact h7
  have hnames' : ((team_statuses recs).map (fun x => x.team)).Nodup := by
    rw [team_statuses_names]
    exact hnames
  have ht' : t ∈ assign_playoff_status (team_statuses recs) := ht
  rcases mem_assign_cases h7' ht' with ⟨j, u, hj, hu, rfl⟩ | ⟨j, u, hj, hu, rfl⟩ | hdrop |
    ⟨u, hu, rfl⟩
  · exfalso
    rw [seed_winner_one_seed] at hs
    cases hs
  · exfalso
    rw [seed_wild_one_seed] at hs
    cases hs
  · exfalso
    obtain ⟨htm, hw⟩ := mem_of_mem_sorted_winners (List.mem_of_mem_drop hdrop)
    unfold below_division_leader at hld
    rw [division_leader_self_of_winner hnames' htm hw] at hld
    have hm := team_statuses_mpw _ htm
    simp only [decide_eq_true_eq] at hld
    omega
  · -- t = classify_unseeded … u, u outside the top 7
    have hdiv : (classify_unseeded (team_statuses recs)
        (sorted_non_winners (team_statuses recs))
        (seventh_place_wins (team_statuses recs)) u).division = u.division :=
      classify_unseeded_division _ _ _ _
    unfold below_division_leader at hld
    rw [hdiv] at hld
    cases hld2 : division_leader (team_statuses recs) u.division with
    | none => rw [hld2] at hld; cases hld
    | some ld =>
      rw [hld2] at hld
      simp only [classify_unseeded_mpw, decide_eq_true_eq] at hld
      -- hld : u.max_possible_wins < ld.wins
      rw [classify_unseeded_status, hld2]
      dsimp only
      rw [if_neg (by omega), classify_wild_card_status]
      rw [if_pos]
      -- 3 ≤ strictly_ahead: the three wild cards are strictly ahead of u
      have hlen : 3 < (sorted_non_winners (team_statuses recs)).length := by
        have := List.length_drop 3 (sorted_non_winners (team_statuses recs))
        have hne : (sorted_non_winners (team_statuses recs)).drop 3 ≠ [] :=
          List.ne_nil_of_mem hu
        have := List.length_pos.mpr hne
        omega
      obtain ⟨a, b, c, rest, hnw, h7w, hcb, hca⟩ :=
        sorted_non_winners_top3 (team_statuses recs) hlen
      have hmpw : (classify_unseeded (team_statuses recs)
          (sorted_non_winners (team_statuses recs))
          (seventh_place_wins (team_statuses recs)) u).max_possible_wins
            = u.max_possible_wins := classify_unseeded_mpw _ _ _ _
      rw [hmpw] at h7th
      have hurest : u ∈ rest := by
        have hdrop3 : (sorted_non_winners (team_statuses recs)).drop 3 = rest := by
          rw [hnw]
          rfl
        rw [hdrop3] at hu
        exact hu
      have hndp := nodup_names_sorted_non_winners (team_statuses recs) hnames'
      rw [hnw] at hndp
      simp only [List.map_cons, List.nodup_cons, List.mem_cons, List.mem_map] at hndp
      have hau : a.team ≠ u.team := by
        intro he
        exact hndp.1 (Or.inr (Or.inr ⟨u, hurest, he.symm⟩))
      have hbu : b.team ≠ u.team := by
        intro he
        exact hndp.2.1 (Or.inr ⟨u, hurest, he.symm⟩)
      have hcu : c.team ≠ u.team := by
        intro he
        exact hndp.2.2.1 ⟨u, hurest, he.symm⟩
      rw [h7w] at h7th
      unfold strictly_ahead
      rw [hnw, ← List.countP_eq_length_filter]
      rw [List.countP_cons, List.countP_cons, List.countP_cons]
      have hwa : u.max_possible_wins < a.wins := by omega
      have hwb : u.max_possible_wins < b.wins := by omega
      have hwc : u.max_possible_wins < c.wins := by omega
      simp [hau, hbu, hcu, hwa, hwb, hwc]

/-- Witness for the amended C5 at the 16-team conference: team "C". -/
theorem claim5_witness :
    (ex_conference.map (fun r => r.team)).Nodup ∧
    7 ≤ ex_conference.length ∧
    (seeding_engine ex_conference).getD 7 default ∈ seeding_engine ex_conference ∧
    ((seeding_engine ex_conference).getD 7 default).seed = none ∧
    ((seeding_engine ex_conference).getD 7 default).games_remaining = 0 ∧
    below_division_leader (team_statuses ex_conference)
      ((seeding_engine ex_conference).getD 7 default) = true ∧
    ((seeding_engine ex_conference).getD 7 default).max_possible_wins <
      seventh_place_wins (team_statuses ex_conference) ∧
    ((seeding_engine ex_conference).getD 7 default).status = "eliminated" :=
  ⟨by decide, by decide, by decide, by decide, by decide, by decide, by decide,
   claim5_finished_below_cutoff_eliminated ex_conference _ (by decide) (by decide)
     (by decide) (by decide) (by decide) (by decide) (by decide)⟩

end LightScore

namespace LightScore

/-! ### Permutation invariance of the engine (claim C9) -/

/-- With pairwise-distinct names, `sort_key_le` is antisymmetric on the list's
members. -/
theorem sort_key_antisymm_of_nodup {l : List TeamStatus}
    (h : (l.map (fun x => x.team)).Nodup) :
    ∀ a ∈ l, ∀ b ∈ l, sort_key_le a b = true → sort_key_le b a = true → a = b := by
  intro a ha b hb h₁ h₂
  obtain ⟨_, _, hteam⟩ := sort_key_le_antisymm h₁ h₂
  exact List.inj_on_of_nodup_map h ha hb hteam

/-- Division leaders are stable under permuting the conference. -/
theorem division_leader_eq_of_perm {ts₁ ts₂ : List TeamStatus} (h : ts₁.Perm ts₂)
    (hn : (ts₁.map (fun x => x.team)).Nodup) (d : String) :
    division_leader ts₁ d = division_leader ts₂ d := by
  unfold division_leader
  congr 1
  apply insertionSort_sort_key_eq_of_perm (h.filter _)
  intro a ha b hb
  exact sort_key_antisymm_of_nodup hn a (List.mem_of_mem_filter ha) b
    (List.mem_of_mem_filter hb)

/-- Leader-name membership is stable under permuting the conference. -/
theorem mem_leader_names_iff_of_perm {ts₁ ts₂ : List TeamStatus} (h : ts₁.Perm ts₂)
    (hn : (ts₁.map (fun x => x.team)).Nodup) (n : String) :
    n ∈ leader_names ts₁ ↔ n ∈ leader_names ts₂ := by
  unfold leader_names
  simp only [List.mem_filterMap, List.mem_dedup, List.mem_map]
  constructor
  · rintro ⟨d, ⟨u, hu, hud⟩, hld⟩
    exact ⟨d, ⟨u, h.mem_iff.mp hu, hud⟩,
      by rw [← division_leader_eq_of_perm h hn d]; exact hld⟩
  · rintro ⟨d, ⟨u, hu, hud⟩, hld⟩
    exact ⟨d, ⟨u, h.mem_iff.mpr hu, hud⟩,
      by rw [division_leader_eq_of_perm h hn d]; exact hld⟩

/-- Boolean form of leader-name stability. -/
theorem leader_names_contains_eq_of_perm {ts₁ ts₂ : List TeamStatus} (h : ts₁.Perm ts₂)
    (hn : (ts₁.map (fun x => x.team)).Nodup) (x : String) :
    (leader_names ts₁).contains x = (leader_names ts₂).contains x := by
  rw [Bool.eq_iff_iff]
  constructor
  · intro hc
    have : x ∈ leader_names ts₁ := by simpa using hc
    have := (mem_leader_names_iff_of_perm h hn x).mp this
    simpa using this
  · intro hc
    have : x ∈ leader_names ts₂ := by simpa using hc
    have := (mem_leader_names_iff_of_perm h hn x).mpr this
    simpa using this

/-- The winner pool is permuted along with the conference. -/
theorem div_winners_perm {ts₁ ts₂ : List TeamStatus} (h : ts₁.Perm ts₂)
    (hn : (ts₁.map (fun x => x.team)).Nodup) :
    (div_winners ts₁).Perm (div_winners ts₂) := by
  unfold div_winners
  have he : ts₂.filter (fun t => (leader_names ts₂).contains t.team)
      = ts₂.filter (fun t => (leader_names ts₁).contains t.team) :=
    List.filter_congr (fun t _ => (leader_names_contains_eq_of_perm h hn t.team).symm)
  rw [he]
  exact h.filter _

/-- The non-winner pool is permuted along with the conference. -/
theorem non_winners_perm {ts₁ ts₂ : List TeamStatus} (h : ts₁.Perm ts₂)
    (hn : (ts₁.map (fun x => x.team)).Nodup) :
    (non_winners ts₁).Perm (non_winners ts₂) := by
  unfold non_winners
  have he : ts₂.filter (fun t => !((leader_names ts₂).contains t.team))
      = ts₂.filter (fun t => !((leader_names ts₁).contains t.team)) :=
    List.filter_congr
      (fun t _ => by rw [leader_names_contains_eq_of_perm h hn t.team])
  rw [he]
  exact h.filter _

/-- The sorted winner list is invariant under permuting the conference. -/
theorem sorted_winners_eq_of_perm {ts₁ ts₂ : List TeamStatus} (h : ts₁.Perm ts₂)
    (hn : (ts₁.map (fun x => x.team)).Nodup) :
    sorted_winners ts₁ = sorted_winners ts₂ := by
  unfold sorted_winners
  apply insertionSort_sort_key_eq_of_perm (div_winners_perm h hn)
  intro a ha b hb
  exact sort_key_antisymm_of_nodup hn a (List.mem_of_mem_filter ha) b
    (List.mem_of_mem_filter hb)

/-- The sorted non-winner list is invariant under permuting the conference. -/
theorem sorted_non_winners_eq_of_perm {ts₁ ts₂ : List TeamStatus} (h : ts₁.Perm ts₂)
    (hn : (ts₁.map (fun x => x.team)).Nodup) :
    sorted_non_winners ts₁ = sorted_non_winners ts₂ := by
  unfold sorted_non_winners
  apply insertionSort_sort_key_eq_of_perm (non_winners_perm h hn)
  intro a ha b hb
  exact sort_key_antisymm_of_nodup hn a (List.mem_of_mem_filter ha) b
    (List.mem_of_mem_filter hb)

/-- `seventh_place_wins` is invariant under permuting the conference. -/
theorem seventh_place_wins_eq_of_perm {ts₁ ts₂ : List TeamStatus} (h : ts₁.Perm ts₂)
    (hn : (ts₁.map (fun x => x.team)).Nodup) :
    seventh_place_wins ts₁ = seventh_place_wins ts₂ := by
  unfold seventh_place_wins
  rw [sorted_non_winners_eq_of_perm h hn]

/-- `eighth_place_max` is invariant under permuting the conference. -/
theorem eighth_place_max_eq_of_perm {ts₁ ts₂ : List TeamStatus} (h : ts₁.Perm ts₂)
    (hn : (ts₁.map (fun x => x.team)).Nodup) :
    eighth_place_max ts₁ = eighth_place_max ts₂ := by
  unfold eighth_place_max
  rw [sorted_non_winners_eq_of_perm h hn]

/-- `div_second_max` is invariant under permuting the conference. -/
theorem div_second_max_eq_of_perm {ts₁ ts₂ : List TeamStatus} (h : ts₁.Perm ts₂)
    (t : TeamStatus) : div_second_max ts₁ t = div_second_max ts₂ t := by
  unfold div_second_max
  apply ((h.filter _).map _).foldr_eq'
  intro x _ y _ z
  omega

/-- The winner-seeding loop depends on the conference only through
`div_second_max`. -/
theorem seed_winners_eq_of_perm {ts₁ ts₂ : List TeamStatus} (h : ts₁.Perm ts₂)
    (l : List TeamStatus) : ∀ i, seed_winners ts₁ i l = seed_winners ts₂ i l := by
  induction l with
  | nil => intro i; rfl
  | cons t rest ih =>
    intro i
    unfold seed_winners seed_winner_one
    rw [div_second_max_eq_of_perm h t, ih (i + 1)]

/-- The classification of an unseeded team depends on the conference only
through its division leader. -/
theorem classify_unseeded_eq_of_perm {ts₁ ts₂ : List TeamStatus} (h : ts₁.Perm ts₂)
    (hn : (ts₁.map (fun x => x.team)).Nodup) (pool : List TeamStatus) (w : Nat)
    (u : TeamStatus) :
    classify_unseeded ts₁ pool w u = classify_unseeded ts₂ pool w u := by
  unfold classify_unseeded
  rw [division_leader_eq_of_perm h hn u.division]

/-- The Seeding Engine is invariant under permuting a conference with
pairwise-distinct team names and at least 7 teams. -/
theorem seeding_engine_eq_of_perm {recs₁ recs₂ : List TeamRecord}
    (hperm : recs₁.Perm recs₂) (hn : (recs₁.map (fun r => r.team)).Nodup)
    (h7 : 7 ≤ recs₁.length) :
    seeding_engine recs₁ = seeding_engine recs₂ := by
  have hp : (team_statuses recs₁).Perm (team_statuses recs₂) := hperm.map mk_team_status
  have hn' : ((team_statuses recs₁).map (fun x => x.team)).Nodup := by
    rw [team_statuses_names]
    exact hn
  have h7₁ : 7 ≤ (team_statuses recs₁).length := by rw [length_team_statuses]; exact h7
  have h7₂ : 7 ≤ (team_statuses recs₂).length := by rw [← hp.length_eq]; exact h7₁
  show assign_playoff_status (team_statuses recs₁)
    = assign_playoff_status (team_statuses recs₂)
  rw [assign_playoff_status_eq _ h7₁, assign_playoff_status_eq _ h7₂]
  have hsw := sorted_winners_eq_of_perm hp hn'
  have hsn := sorted_non_winners_eq_of_perm hp hn'
  have h7th := seventh_place_wins_eq_of_perm hp hn'
  have h8th := eighth_place_max_eq_of_perm hp hn'
  rw [← hsw, ← hsn, ← h7th, ← h8th, seed_winners_eq_of_perm hp]
  have hmap : ((sorted_non_winners (team_statuses recs₁)).drop 3).map
      (classify_unseeded (team_statuses recs₁) (sorted_non_winners (team_statuses recs₁))
        (seventh_place_wins (team_statuses recs₁)))
      = ((sorted_non_winners (team_statuses recs₁)).drop 3).map
        (classify_unseeded (team_statuses recs₂) (sorted_non_winners (team_statuses recs₁))
          (seventh_place_wins (team_statuses recs₁))) :=
    List.map_congr_left (fun u _ => classify_unseeded_eq_of_perm hp hn' _ _ u)
  rw [hmap]

end LightScore

namespace LightScore

/-! ### Claim C9: total order, permutation invariance, determinism -/

/-- C9 counterexample: below 7 teams the engine returns the input unchanged,
so two permuted inputs with distinct names give different (permuted)
outputs. -/
theorem claim9_counterexample :
    ex_pair.Perm ex_pair_rev ∧
    (ex_pair.map (fun r => r.team)).Nodup ∧
    ¬ (seeding_engine ex_pair = seeding_engine ex_pair_rev) := by
  refine ⟨List.Perm.swap _ _ _, by decide, by decide⟩

/-- C9 (amended): the record comparison is a total preorder, teams with equal
wins and losses are ordered by lexicographically smaller name first, the
engine's output is invariant under permuting a conference of at least 7 teams
with pairwise-distinct names, and identical input yields identical output. -/
theorem claim9_total_order_and_determinism
    (d e a b c p q : TeamStatus) (recs₁ recs₂ recs₃ recs₄ : List TeamRecord)
    (hab : sort_key_le a b = true) (hbc : sort_key_le b c = true)
    (hw : p.wins = q.wins) (hl : p.losses = q.losses)
    (hpq : str_le p.team q.team = true) (hne : p.team ≠ q.team)
    (hperm : recs₁.Perm recs₂) (hn : (recs₁.map (fun r => r.team)).Nodup)
    (h7 : 7 ≤ recs₁.length) (h34 : recs₃ = recs₄) :
    (sort_key_le d e || sort_key_le e d) = true
    ∧ sort_key_le a c = true
    ∧ (sort_key_le p q = true ∧ sort_key_le q p = false)
    ∧ seeding_engine recs₁ = seeding_engine recs₂
    ∧ seeding_engine recs₃ = seeding_engine recs₄ := by
  have hpq' : sort_key_le p q = true := by
    rw [sort_key_le_iff]
    exact Or.inr ⟨hw, Or.inr ⟨hl, hpq⟩⟩
  refine ⟨sort_key_le_total d e, sort_key_le_trans a b c hab hbc, ⟨hpq', ?_⟩,
    seeding_engine_eq_of_perm hperm hn h7, by rw [h34]⟩
  rw [Bool.eq_false_iff]
  intro hqp
  exact hne (sort_key_le_antisymm hpq' hqp).2.2

/-- Witness for C9 at the 16-team conference and its shuffle. -/
theorem claim9_witness :
    sort_key_le (mk_team_status ⟨"A", "E", 3, 2, 0⟩) (mk_team_status ⟨"A", "E", 3, 2, 0⟩)
      = true ∧
    (mk_team_status ⟨"A", "E", 3, 2, 0⟩).wins = (mk_team_status ⟨"B", "E", 3, 2, 0⟩).wins ∧
    (mk_team_status ⟨"A", "E", 3, 2, 0⟩).losses
      = (mk_team_status ⟨"B", "E", 3, 2, 0⟩).losses ∧
    str_le (mk_team_status ⟨"A", "E", 3, 2, 0⟩).team
      (mk_team_status ⟨"B", "E", 3, 2, 0⟩).team = true ∧
    (mk_team_status ⟨"A", "E", 3, 2, 0⟩).team ≠ (mk_team_status ⟨"B", "E", 3, 2, 0⟩).team ∧
    ex_conference.Perm ex_conference_shuffled ∧
    (ex_conference.map (fun r => r.team)).Nodup ∧
    7 ≤ ex_conference.length ∧
    ((sort_key_le (mk_team_status ⟨"A", "E", 3, 2, 0⟩) (mk_team_status ⟨"B", "E", 3, 2, 0⟩)
        || sort_key_le (mk_team_status ⟨"B", "E", 3, 2, 0⟩)
            (mk_team_status ⟨"A", "E", 3, 2, 0⟩)) = true
    ∧ sort_key_le (mk_team_status ⟨"A", "E", 3, 2, 0⟩) (mk_team_status ⟨"A", "E", 3, 2, 0⟩)
        = true
    ∧ (sort_key_le (mk_team_status ⟨"A", "E", 3, 2, 0⟩) (mk_team_status ⟨"B", "E", 3, 2, 0⟩)
          = true
        ∧ sort_key_le (mk_team_status ⟨"B", "E", 3, 2, 0⟩) (mk_team_status ⟨"A", "E", 3, 2, 0⟩)
          = false)
    ∧ seeding_engine ex_conference = seeding_engine ex_conference_shuffled
    ∧ seeding_engine ex_small = seeding_engine ex_small) :=
  ⟨by decide, by decide, by decide, by decide, by decide, by decide, by decide, by decide,
   claim9_total_order_and_determinism
     (mk_team_status ⟨"A", "E", 3, 2, 0⟩) (mk_team_status ⟨"B", "E", 3, 2, 0⟩)
     (mk_team_status ⟨"A", "E", 3, 2, 0⟩) (mk_team_status ⟨"A", "E", 3, 2, 0⟩)
     (mk_team_status ⟨"A", "E", 3, 2, 0⟩)
     (mk_team_status ⟨"A", "E", 3, 2, 0⟩) (mk_team_status ⟨"B", "E", 3, 2, 0⟩)
     ex_conference ex_conference_shuffled ex_small ex_small
     (by decide) (by decide) (by decide) (by decide) (by decide) (by decide)
     (by decide) (by decide) (by decide) rfl⟩

end LightScore
